import Mathlib

/-!
# Verification of the Instacart dbt feature-store pipeline

A shallow embedding, over lists of records, of the SQL models in
`dbt_feature_store_example_kaggle` (staging → intermediate metrics →
mart feature tables) together with the `calculate_time_window_aggs`
macro, and proofs about the embedded pipeline.

Conventions of the embedding:

* a relation is a `List` of a record structure; SQL `NULL` for a column
  of type `τ` is `Option τ`; exact SQL `NUMBER` arithmetic is `ℚ`;
* `WHERE`/`ON` predicates are boolean functions, written with `decide`
  over the propositional condition;
* Snowflake division raises an error on a zero divisor, so an unguarded
  division is `Except Unit ℚ` and a model containing one yields
  `Except Unit (List row)`; `x / nullif(y, 0)` is the `Option`
  composition `divN x (nullif y 0)`;
* `row_number()` / `lag()` over an `ORDER BY` that does not totally
  order its partition is nondeterministic in SQL; the executable
  pipeline fixes one valid materialization (ties resolved by position
  in the input list) and the nondeterminism itself is modelled
  separately by the `IsRowNumberingOf` relation;
* `stddev`, `median` and `mode` columns of the user metrics model are
  not modelled (they are consumed by no claim under verification and
  `stddev` is irrational).
-/

namespace FeatureStore

/-! ## SQL value helpers -/

/-- SQL `NULLIF(x, y)`: `NULL` when the two values are equal. -/
def nullif (x y : ℚ) : Option ℚ := if x = y then none else some x

/-- SQL `NULLIF` on a nullable first argument (`NULL` stays `NULL`). -/
def nullifN (x : Option ℚ) (y : ℚ) : Option ℚ :=
  x.bind (fun v => if v = y then none else some v)

/-- Division with a nullable divisor; `NULL` propagates. -/
def divN (n : ℚ) (d : Option ℚ) : Option ℚ := d.map (fun v => n / v)

/-- Division where both sides are nullable; `NULL` propagates. -/
def divNN (n : Option ℚ) (d : Option ℚ) : Option ℚ :=
  n.bind (fun a => d.map (fun v => a / v))

/-- Snowflake division without a guard: a zero divisor is an error that
aborts the statement. -/
def divE (n d : ℚ) : Except Unit ℚ :=
  if d = 0 then Except.error () else Except.ok (n / d)

/-- SQL `SUM` over the (non-null) integer values of a group. -/
def sumZ (l : List Int) : Int := l.sum

/-- SQL `MAX` over a group of integers; groups are non-empty in every
use, so the `[]` default is never reached. -/
def maxZ : List Int → Int
  | [] => 0
  | a :: t => t.foldl max a

/-- SQL `MIN` over a group of integers (same remark as `maxZ`). -/
def minZ : List Int → Int
  | [] => 0
  | a :: t => t.foldl min a

/-- SQL `AVG` over the non-null values of a column: `NULL` on an empty
value list, otherwise the exact mean. -/
def avgQ (l : List ℚ) : Option ℚ :=
  if l.length = 0 then none else some (l.sum / l.length)

/-- SQL `AVG` over a nullable column: `NULL` values are ignored. -/
def avgN (l : List (Option ℚ)) : Option ℚ := avgQ (l.filterMap id)

/-- SQL `MAX` over a nullable integer column (`NULL` ignored; `NULL`
when every value is `NULL`). -/
def maxN (l : List (Option Int)) : Option Int :=
  match l.filterMap id with
  | [] => none
  | a :: t => some (t.foldl max a)

/-- SQL `MIN` over a nullable integer column. -/
def minN (l : List (Option Int)) : Option Int :=
  match l.filterMap id with
  | [] => none
  | a :: t => some (t.foldl min a)

/-- SQL `COUNT(DISTINCT c)` over the values of a group. -/
def countDistinct {α : Type} [DecidableEq α] (l : List α) : Int :=
  l.dedup.length

instance {ε α : Type} [DecidableEq ε] [DecidableEq α] :
    DecidableEq (Except ε α) := fun x y =>
  match x, y with
  | Except.error a, Except.error b =>
    if h : a = b then isTrue (by rw [h]) else isFalse (by simp [h])
  | Except.ok a, Except.ok b =>
    if h : a = b then isTrue (by rw [h]) else isFalse (by simp [h])
  | Except.error _, Except.ok _ => isFalse (by simp)
  | Except.ok _, Except.error _ => isFalse (by simp)

/-- Building a relation row by row where each row's computation may
fail (the statement aborts on the first failing row). -/
def mapME {α β : Type} (f : α → Except Unit β) : List α →
    Except Unit (List β)
  | [] => Except.ok []
  | a :: t =>
    match f a, mapME f t with
    | Except.error u, _ => Except.error u
    | Except.ok _, Except.error u => Except.error u
    | Except.ok b, Except.ok bs => Except.ok (b :: bs)

/-! ## Relational combinators -/

/-- SQL `GROUP BY key`: one bucket per distinct key value, keys in
first-appearance order, each bucket keeping its rows in input order. -/
def groupBy {α κ : Type} [DecidableEq κ] (key : α → κ) (l : List α) :
    List (κ × List α) :=
  (l.map key).dedup.map (fun k => (k, l.filter (fun a => decide (key a = k))))

/-- SQL `INNER JOIN` on an arbitrary boolean `ON` condition. -/
def innerJoin {α β : Type} (l : List α) (r : List β) (on_ : α → β → Bool) :
    List (α × β) :=
  l.flatMap (fun a => (r.filter (fun b => on_ a b)).map (fun b => (a, b)))

/-- SQL `LEFT JOIN`: an unmatched left row survives with a `NULL`
right side. -/
def leftJoin {α β : Type} (l : List α) (r : List β) (on_ : α → β → Bool) :
    List (α × Option β) :=
  l.flatMap (fun a =>
    match r.filter (fun b => on_ a b) with
    | [] => [(a, none)]
    | bs => bs.map (fun b => (a, some b)))

/-- First row of a list maximizing an integer measure (earlier rows win
ties): the executable materialization of `row_number() ... order by f
desc` followed by `rn = 1`. -/
def argmaxBy {α : Type} (f : α → Int) : List α → Option α
  | [] => none
  | a :: t => some (t.foldl (fun b c => if f b < f c then c else b) a)

/-! ### Basic lemmas about the combinators -/

theorem mem_innerJoin {α β : Type} {l : List α} {r : List β}
    {on_ : α → β → Bool} {x : α × β} (h : x ∈ innerJoin l r on_) :
    x.1 ∈ l ∧ x.2 ∈ r ∧ on_ x.1 x.2 = true := by
  simp only [innerJoin, List.mem_flatMap, List.mem_map] at h
  obtain ⟨a, ha, b, hb, rfl⟩ := h
  exact ⟨ha, (List.mem_filter.mp hb).1, (List.mem_filter.mp hb).2⟩

theorem mem_leftJoin {α β : Type} {l : List α} {r : List β}
    {on_ : α → β → Bool} {x : α × Option β} (h : x ∈ leftJoin l r on_) :
    x.1 ∈ l ∧ (x.2 = none ∨ ∃ b ∈ r, x.2 = some b ∧ on_ x.1 b = true) := by
  simp only [leftJoin, List.mem_flatMap] at h
  obtain ⟨a, ha, hx⟩ := h
  rcases hb : r.filter (fun b => on_ a b) with _ | ⟨b0, bs⟩
  · rw [hb] at hx
    simp only [List.mem_singleton] at hx
    subst hx; exact ⟨ha, Or.inl rfl⟩
  · rw [hb] at hx
    simp only [List.mem_map] at hx
    obtain ⟨b, hbmem, rfl⟩ := hx
    have hbr : b ∈ r.filter (fun b => on_ a b) := hb ▸ hbmem
    exact ⟨ha, Or.inr ⟨b, (List.mem_filter.mp hbr).1, rfl,
      (List.mem_filter.mp hbr).2⟩⟩

theorem groupBy_keys_nodup {α κ : Type} [DecidableEq κ] (key : α → κ)
    (l : List α) : ((groupBy key l).map Prod.fst).Nodup := by
  simp only [groupBy, List.map_map]
  have : (Prod.fst ∘ fun k => (k, l.filter (fun a => decide (key a = k)))) =
      id := rfl
  rw [this, List.map_id]
  exact l.map key |>.nodup_dedup

theorem mem_groupBy {α κ : Type} [DecidableEq κ] {key : α → κ} {l : List α}
    {k : κ} {g : List α} (h : (k, g) ∈ groupBy key l) :
    g = l.filter (fun a => decide (key a = k)) ∧ k ∈ l.map key := by
  simp only [groupBy, List.mem_map] at h
  obtain ⟨k0, hk0, heq⟩ := h
  obtain ⟨rfl, rfl⟩ := Prod.mk.injEq .. ▸ heq
  exact ⟨rfl, List.mem_dedup.mp hk0⟩

theorem groupBy_group_mem {α κ : Type} [DecidableEq κ] {key : α → κ}
    {l : List α} {k : κ} {g : List α} (h : (k, g) ∈ groupBy key l)
    {a : α} (ha : a ∈ g) : a ∈ l ∧ key a = k := by
  obtain ⟨rfl, -⟩ := mem_groupBy h
  refine ⟨(List.mem_filter.mp ha).1, ?_⟩
  have := (List.mem_filter.mp ha).2
  simpa using this

theorem groupBy_group_ne_nil {α κ : Type} [DecidableEq κ] {key : α → κ}
    {l : List α} {k : κ} {g : List α} (h : (k, g) ∈ groupBy key l) :
    g ≠ [] := by
  obtain ⟨rfl, hk⟩ := mem_groupBy h
  obtain ⟨a, ha, hka⟩ := List.mem_map.mp hk
  intro hnil
  have : a ∈ l.filter (fun a => decide (key a = k)) :=
    List.mem_filter.mpr ⟨ha, by simpa using hka⟩
  rw [hnil] at this
  exact absurd this (List.not_mem_nil a)

theorem length_filter_le_one_of_nodup {β κ : Type} {kb : β → κ} {r : List β}
    (hr : (r.map kb).Nodup) (p : β → Bool) (k : κ)
    (hp : ∀ b, p b = true → kb b = k) :
    (r.filter p).length ≤ 1 := by
  induction r with
  | nil => simp
  | cons b t ih =>
    simp only [List.map_cons, List.nodup_cons] at hr
    by_cases hb : p b = true
    · have hkb := hp b hb
      have hnone : t.filter p = [] := by
        rw [List.filter_eq_nil_iff]
        intro c hc hpc
        have hcb : kb c = kb b := by rw [hp c hpc, hkb]
        exact hr.1 (hcb ▸ List.mem_map_of_mem kb hc)
      simp [List.filter_cons, hb, hnone]
    · simp only [List.filter_cons, hb, if_neg]
      simpa using ih hr.2

/-- Keys of an inner join are duplicate-free when the left keys are and
each left row matches at most one right row. -/
theorem innerJoin_keys_nodup {α β κ : Type} {l : List α} {r : List β}
    {on_ : α → β → Bool} {ka : α → κ}
    (hl : (l.map ka).Nodup)
    (hr : ∀ a ∈ l, (r.filter (fun b => on_ a b)).length ≤ 1) :
    ((innerJoin l r on_).map (fun x => ka x.1)).Nodup := by
  induction l with
  | nil => simp [innerJoin]
  | cons a t ih =>
    simp only [List.map_cons, List.nodup_cons] at hl
    have step : innerJoin (a :: t) r on_ =
        ((r.filter (fun b => on_ a b)).map (fun b => (a, b))) ++
          innerJoin t r on_ := by
      simp [innerJoin]
    rw [step, List.map_append]
    apply List.Nodup.append
    · rcases hfl : r.filter (fun b => on_ a b) with _ | ⟨b0, bs⟩
      · simp
      · have hlen : (b0 :: bs).length ≤ 1 := by
          rw [← hfl]; exact hr a (by simp)
        have hbs : bs.length = 0 := by
          simp only [List.length_cons] at hlen; omega
        rw [List.eq_nil_of_length_eq_zero hbs]; simp
    · exact ih hl.2 (fun a1 h1 => hr a1 (by simp [h1]))
    · intro x hx hx2
      have hxa : x = ka a := by
        simp only [List.map_map, List.mem_map, Function.comp] at hx
        obtain ⟨b, -, rfl⟩ := hx
        rfl
      subst hxa
      simp only [List.mem_map] at hx2
      obtain ⟨y, hy, hky⟩ := hx2
      exact hl.1 (hky ▸ List.mem_map_of_mem ka (mem_innerJoin hy).1)

theorem leftJoin_block_fst {α β : Type} (a : α) (bs : List β)
    (x : α × Option β)
    (hx : x ∈ (match bs with
      | [] => [(a, none)]
      | l => l.map (fun b => (a, some b)))) : x.1 = a := by
  rcases bs with _ | ⟨b, t⟩
  · simp only [List.mem_singleton] at hx; subst hx; rfl
  · simp only [List.mem_map] at hx; obtain ⟨c, -, rfl⟩ := hx; rfl

/-- Keys of a left join are duplicate-free when the left keys are and
each left row matches at most one right row. -/
theorem leftJoin_keys_nodup {α β κ : Type} {l : List α} {r : List β}
    {on_ : α → β → Bool} {ka : α → κ}
    (hl : (l.map ka).Nodup)
    (hr : ∀ a ∈ l, (r.filter (fun b => on_ a b)).length ≤ 1) :
    ((leftJoin l r on_).map (fun x => ka x.1)).Nodup := by
  induction l with
  | nil => simp [leftJoin]
  | cons a t ih =>
    simp only [List.map_cons, List.nodup_cons] at hl
    have step : leftJoin (a :: t) r on_ =
        (match r.filter (fun b => on_ a b) with
          | [] => [(a, none)]
          | bs => bs.map (fun b => (a, some b))) ++ leftJoin t r on_ := by
      simp [leftJoin]
    rw [step, List.map_append]
    apply List.Nodup.append
    · rcases hfl : r.filter (fun b => on_ a b) with _ | ⟨b0, bs⟩
      · simp
      · have hlen : (b0 :: bs).length ≤ 1 := by
          rw [← hfl]; exact hr a (by simp)
        have hbs : bs.length = 0 := by
          simp only [List.length_cons] at hlen; omega
        rw [List.eq_nil_of_length_eq_zero hbs]; simp
    · exact ih hl.2 (fun a1 h1 => hr a1 (by simp [h1]))
    · intro x hx hx2
      have hxa : x = ka a := by
        simp only [List.mem_map] at hx
        obtain ⟨y, hy, rfl⟩ := hx
        rw [leftJoin_block_fst a _ y hy]
      subst hxa
      simp only [List.mem_map] at hx2
      obtain ⟨y, hy, hky⟩ := hx2
      exact hl.1 (hky ▸ List.mem_map_of_mem ka (mem_leftJoin hy).1)

/-- `find?` through a key-preserving `map`. -/
theorem find?_map_of_key {α β κ : Type} [DecidableEq κ] (f : α → β)
    (keyA : α → κ) (keyB : β → κ) (hf : ∀ a, keyB (f a) = keyA a)
    (l : List α) (k : κ) :
    (l.map f).find? (fun b => decide (keyB b = k)) =
      (l.find? (fun a => decide (keyA a = k))).map f := by
  induction l with
  | nil => simp
  | cons a t ih =>
    by_cases h : keyA a = k
    · simp [List.find?_cons, hf, h]
    · have hd : (decide (keyA a = k)) = false := by simp [h]
      simp [List.find?_cons, hf, hd, ih]

theorem find?_eq_self {κ : Type} [DecidableEq κ] (l : List κ) (k : κ) :
    l.find? (fun x => decide (x = k)) = if k ∈ l then some k else none := by
  induction l with
  | nil => simp
  | cons a t ih =>
    by_cases h : a = k
    · subst h; simp [List.find?_cons]
    · have hd : (decide (a = k)) = false := by simp [h]
      simp only [List.find?_cons, hd, List.mem_cons]
      rw [ih]
      by_cases hk : k ∈ t <;> simp [hk, h, Ne.symm h]

/-- Looking a key up in a `groupBy` result: the key's bucket when the
key occurs in the list, `none` otherwise. -/
theorem groupBy_find? {α κ : Type} [DecidableEq κ] (key : α → κ)
    (l : List α) (k : κ) :
    (groupBy key l).find? (fun g => decide (g.1 = k)) =
      if k ∈ l.map key then
        some (k, l.filter (fun a => decide (key a = k)))
      else none := by
  unfold groupBy
  rw [find?_map_of_key _ (fun x => x) Prod.fst (fun a => rfl)]
  rw [find?_eq_self]
  by_cases hk : k ∈ l.map key
  · simp [List.mem_dedup, hk]
  · simp [List.mem_dedup, hk]

/-! ## The window aggregation generator (`macros/time_windows.sql`)

`calculate_time_window_aggs(relation, group_by_cols, timestamp_col,
metric_cols, time_windows)` is generic in the relation's row type `ρ`,
the group key type `κ` (a tuple of group columns), and the metric
projection.  `currentDate` is the value Snowflake's `current_date()`
returns for the statement that executes the rendered query: every
window CTE of one rendered statement reads the same instant, but the
macro has no reference-date parameter, so distinct statements read
distinct clocks.  A list of metrics is handled one projection at a
time (the rendered SQL repeats the same `sum`/`avg` pair per metric
column). -/

/-- One `window_{{ window }}` CTE: rows whose `datediff('day', ts,
current_date())` is at most the window length, grouped by the group
columns, with `sum(metric)` and `avg(metric)` per group. -/
def window_cte {ρ κ : Type} [DecidableEq κ] (key : ρ → κ) (ts : ρ → Int)
    (metric : ρ → ℚ) (currentDate : Int) (w : Int) (base : List ρ) :
    List (κ × ℚ × ℚ) :=
  (groupBy key (base.filter (fun r => decide (currentDate - ts r ≤ w)))).map
    (fun kg =>
      (kg.1, (kg.2.map metric).sum, (kg.2.map metric).sum / kg.2.length))

/-- The macro's final select: one output row per `source_data` row,
carrying the group key and, for every window, the window's sum and
average for that key coalesced to `0`.  The chain of `left join`s onto
the `window_w` CTEs is keyed on the group columns, which are
duplicate-free in each CTE (`window_cte_keys_nodup`), so each join is
the lookup `find?`. -/
def calculate_time_window_aggs {ρ κ : Type} [DecidableEq κ] (key : ρ → κ)
    (ts : ρ → Int) (metric : ρ → ℚ) (currentDate : Int)
    (time_windows : List Int) (base : List ρ) : List (κ × List (ℚ × ℚ)) :=
  base.map (fun r =>
    (key r, time_windows.map (fun w =>
      match (window_cte key ts metric currentDate w base).find?
          (fun x => decide (x.1 = key r)) with
      | none => (0, 0)
      | some x => (x.2.1, x.2.2))))

theorem window_cte_keys_nodup {ρ κ : Type} [DecidableEq κ] (key : ρ → κ)
    (ts : ρ → Int) (metric : ρ → ℚ) (currentDate : Int) (w : Int)
    (base : List ρ) :
    ((window_cte key ts metric currentDate w base).map Prod.fst).Nodup := by
  unfold window_cte
  rw [List.map_map]
  have heq : (Prod.fst ∘ fun kg : κ × List ρ =>
      (kg.1, (kg.2.map metric).sum, (kg.2.map metric).sum / kg.2.length)) =
      Prod.fst := rfl
  rw [heq]
  exact groupBy_keys_nodup key _

/-- The spec-side contract of the generator, written from §4.2 of the
spec: per group key and window, the sum of the metric over the group's
rows inside the window and their average, both `0` when the group has
no rows inside the window. -/
def window_agg_spec {ρ κ : Type} [DecidableEq κ] (key : ρ → κ)
    (ts : ρ → Int) (metric : ρ → ℚ) (currentDate : Int) (w : Int)
    (base : List ρ) (k : κ) : ℚ × ℚ :=
  let g := base.filter
    (fun r => decide (key r = k) && decide (currentDate - ts r ≤ w))
  ((g.map metric).sum,
    if g.length = 0 then 0 else (g.map metric).sum / g.length)

theorem window_cte_find? {ρ κ : Type} [DecidableEq κ] (key : ρ → κ)
    (ts : ρ → Int) (metric : ρ → ℚ) (currentDate : Int) (w : Int)
    (base : List ρ) (k : κ) :
    (window_cte key ts metric currentDate w base).find?
        (fun x => decide (x.1 = k)) =
      if k ∈ (base.filter
          (fun r => decide (currentDate - ts r ≤ w))).map key then
        some (k, window_agg_spec key ts metric currentDate w base k)
      else none := by
  unfold window_cte
  rw [find?_map_of_key
    (fun kg : κ × List ρ =>
      (kg.1, (kg.2.map metric).sum, (kg.2.map metric).sum / (kg.2.length : ℚ)))
    Prod.fst Prod.fst (fun a => rfl), groupBy_find?]
  set F := base.filter (fun r => decide (currentDate - ts r ≤ w)) with hF
  by_cases hk : k ∈ F.map key
  · simp only [hk, if_true, Option.map_some]
    have hgroup : F.filter (fun a => decide (key a = k)) =
        base.filter
          (fun r => decide (key r = k) && decide (currentDate - ts r ≤ w)) := by
      rw [hF, List.filter_filter]
    have hne : (F.filter (fun a => decide (key a = k))).length ≠ 0 := by
      obtain ⟨r, hr, hkr⟩ := List.mem_map.mp hk
      have : r ∈ F.filter (fun a => decide (key a = k)) :=
        List.mem_filter.mpr ⟨hr, by simpa using hkr⟩
      intro h0
      rw [List.eq_nil_of_length_eq_zero h0] at this
      exact absurd this (List.not_mem_nil r)
    unfold window_agg_spec
    rw [← hgroup]
    simp [hne]
  · simp [hk]

/-- C4 head theorem: the generator equals, row for row, the spec-side
contract. -/
theorem calculate_time_window_aggs_eq_spec {ρ κ : Type} [DecidableEq κ]
    (key : ρ → κ) (ts : ρ → Int) (metric : ρ → ℚ) (currentDate : Int)
    (time_windows : List Int) (base : List ρ) :
    calculate_time_window_aggs key ts metric currentDate time_windows base =
      base.map (fun r =>
        (key r, time_windows.map (fun w =>
          window_agg_spec key ts metric currentDate w base (key r)))) := by
  unfold calculate_time_window_aggs
  refine List.map_congr_left (fun r hr => ?_)
  refine congrArg (fun z => (key r, z)) ?_
  refine List.map_congr_left (fun w hw => ?_)
  rw [window_cte_find?]
  by_cases hk : key r ∈ (base.filter
      (fun x => decide (currentDate - ts x ≤ w))).map key
  · rw [if_pos hk]
  · rw [if_neg hk]
    have hempty : base.filter
        (fun x => decide (key x = key r) && decide (currentDate - ts x ≤ w)) =
        [] := by
      rw [List.filter_eq_nil_iff]
      intro a ha hcond
      simp only [Bool.and_eq_true, decide_eq_true_eq] at hcond
      exact hk (List.mem_map.mpr ⟨a,
        List.mem_filter.mpr ⟨ha, by simpa using hcond.2⟩, hcond.1⟩)
    simp only [window_agg_spec]
    rw [hempty]
    simp

/-- Rows passing the `w1` membership test also pass the `w2` test, so
the `w1` bucket of a group is a sublist of its `w2` bucket. -/
theorem window_group_sublist {ρ κ : Type} [DecidableEq κ] (key : ρ → κ)
    (ts : ρ → Int) (currentDate : Int) {w1 w2 : Int} (h : w1 ≤ w2)
    (base : List ρ) (k : κ) :
    (base.filter
        (fun r => decide (key r = k) && decide (currentDate - ts r ≤ w1))).Sublist
      (base.filter
        (fun r => decide (key r = k) && decide (currentDate - ts r ≤ w2))) := by
  apply List.monotone_filter_right
  intro a ha
  simp only [Bool.and_eq_true, decide_eq_true_eq] at ha ⊢
  exact ⟨ha.1, le_trans ha.2 h⟩

theorem window_agg_spec_sum_mono {ρ κ : Type} [DecidableEq κ] (key : ρ → κ)
    (ts : ρ → Int) (metric : ρ → ℚ) (currentDate : Int) {w1 w2 : Int}
    (hw : w1 ≤ w2) (base : List ρ) (k : κ)
    (hm : ∀ r ∈ base, 0 ≤ metric r) :
    (window_agg_spec key ts metric currentDate w1 base k).1 ≤
      (window_agg_spec key ts metric currentDate w2 base k).1 := by
  unfold window_agg_spec
  apply List.Sublist.sum_le_sum
  · exact List.Sublist.map metric (window_group_sublist key ts currentDate hw base k)
  · intro a ha
    simp only [List.mem_map] at ha
    obtain ⟨r, hr, rfl⟩ := ha
    exact hm r (List.mem_filter.mp hr).1

/-- C4: the generator returns one relation in which every base row —
hence every group-key combination present in the base relation — and
every window carries `sum(metric)` and `avg(metric)` over the group's
rows whose age relative to the statement date is at most the window
length, both coalesced to `0` (not `NULL`, not a dropped row) when the
group has no rows inside the window; and every key present in the base
relation appears in the output (left-join semantics). -/
theorem window_generator_contract {ρ κ : Type} [DecidableEq κ]
    (key : ρ → κ) (ts : ρ → Int) (metric : ρ → ℚ) (currentDate : Int)
    (time_windows : List Int) (base : List ρ) :
    calculate_time_window_aggs key ts metric currentDate time_windows
        base =
      base.map (fun r =>
        (key r, time_windows.map (fun w =>
          window_agg_spec key ts metric currentDate w base (key r)))) ∧
    ∀ k ∈ base.map key,
      ∃ row ∈ calculate_time_window_aggs key ts metric currentDate
        time_windows base, row.1 = k := by
  refine ⟨calculate_time_window_aggs_eq_spec key ts metric currentDate
    time_windows base, ?_⟩
  intro k hk
  obtain ⟨r, hr, rfl⟩ := List.mem_map.mp hk
  exact ⟨_, List.mem_map_of_mem _ hr, rfl⟩

/-- C5: for window lengths `w1 < w2` and any output row of the
generator, the `w1` sum of a pointwise non-negative metric is at most
the `w2` sum for that row's group, because the `w1` bucket is a sublist
of the `w2` bucket (windows are nested, not mutually exclusive). -/
theorem window_sums_nested {ρ κ : Type} [DecidableEq κ] (key : ρ → κ)
    (ts : ρ → Int) (metric : ρ → ℚ) (currentDate : Int)
    (time_windows : List Int) (base : List ρ) {i j : ℕ} {w1 w2 : Int}
    (hwi : time_windows[i]? = some w1) (hwj : time_windows[j]? = some w2)
    (hlt : w1 < w2) (hm : ∀ r ∈ base, 0 ≤ metric r)
    {row : κ × List (ℚ × ℚ)}
    (hrow : row ∈ calculate_time_window_aggs key ts metric currentDate
      time_windows base)
    {p q : ℚ × ℚ} (hp : row.2[i]? = some p) (hq : row.2[j]? = some q) :
    p.1 ≤ q.1 ∧
    (base.filter (fun r => decide (key r = row.1) &&
        decide (currentDate - ts r ≤ w1))).Sublist
      (base.filter (fun r => decide (key r = row.1) &&
        decide (currentDate - ts r ≤ w2))) := by
  rw [calculate_time_window_aggs_eq_spec] at hrow
  obtain ⟨r, hr, rfl⟩ := List.mem_map.mp hrow
  simp only [List.getElem?_map, hwi, hwj, Option.map_some] at hp hq
  obtain rfl := Option.some.inj hp
  obtain rfl := Option.some.inj hq
  exact ⟨window_agg_spec_sum_mono key ts metric currentDate
      (le_of_lt hlt) base (key r) hm,
    window_group_sublist key ts currentDate (le_of_lt hlt) base (key r)⟩

/-- C8 (amended): within one rendered statement every window CTE reads
the single `current_date()` of that statement, and the output depends
on the data and that date only through row ages — translating every
row timestamp and the statement date together leaves the generator's
output unchanged.  (The reference is still a per-statement clock read:
`window_aggs_read_statement_clock` shows two statement dates disagree
over the same data.) -/
theorem calculate_time_window_aggs_shift {κ : Type} [DecidableEq κ]
    (mf : κ → ℚ) (currentDate δ : Int) (time_windows : List Int)
    (base : List (κ × Int)) :
    calculate_time_window_aggs Prod.fst Prod.snd (fun r => mf r.1)
        (currentDate + δ) time_windows
        (base.map (fun r => (r.1, r.2 + δ))) =
      calculate_time_window_aggs Prod.fst Prod.snd (fun r => mf r.1)
        currentDate time_windows base := by
  rw [calculate_time_window_aggs_eq_spec, calculate_time_window_aggs_eq_spec,
    List.map_map]
  apply List.map_congr_left
  intro r hr
  simp only [Function.comp]
  refine congrArg (fun z => (r.1, z)) ?_
  apply List.map_congr_left
  intro w hw
  unfold window_agg_spec
  have hfil : (base.map (fun x => (x.1, x.2 + δ))).filter
      (fun x => decide (x.1 = r.1) && decide (currentDate + δ - x.2 ≤ w)) =
      (base.filter
        (fun x => decide (x.1 = r.1) && decide (currentDate - x.2 ≤ w))).map
        (fun x => (x.1, x.2 + δ)) := by
    rw [List.filter_map]
    refine congrArg _ ?_
    apply List.filter_congr
    intro a ha
    simp only [Function.comp]
    refine congrArg (fun b => decide (a.1 = r.1) && b) ?_
    exact decide_eq_decide.mpr (by omega)
  rw [hfil]
  have hcomp : ((fun x : κ × Int => mf x.1) ∘ fun x : κ × Int =>
      (x.1, x.2 + δ)) = (fun x : κ × Int => mf x.1) := rfl
  simp only [List.map_map, List.length_map, hcomp]

/-! ## Data model (`models/sources.yml`, staging models)

Raw and staged rows.  The staging models only rename raw columns, so
one record type per entity serves both layers; identifier columns are
the non-null integers the source contract declares, and the nullable
`days_since_prior_order` is an `Option`. -/

structure OrderRow where
  order_id : Int
  user_id : Int
  order_number : Int
  order_dow : Int
  order_hour_of_day : Int
  days_since_prior_order : Option ℚ
  eval_set : String
deriving DecidableEq

structure OrderProductRow where
  order_id : Int
  product_id : Int
  cart_position : Int
  is_reordered : Int
deriving DecidableEq

structure ProductRow where
  product_id : Int
  product_name : String
  aisle_id : Int
  department_id : Int
deriving DecidableEq

structure AisleRow where
  aisle_id : Int
  aisle_name : String
deriving DecidableEq

structure DepartmentRow where
  department_id : Int
  department_name : String
deriving DecidableEq

/-- The staged database the mart models read. -/
structure DB where
  orders : List OrderRow
  order_products : List OrderProductRow
  products : List ProductRow
  aisles : List AisleRow
  departments : List DepartmentRow
deriving DecidableEq

/-! ## `int_instacart__user_order_metrics` -/

structure OrdersJoinedRow where
  order_id : Int
  user_id : Int
  order_number : Int
  order_dow : Int
  order_hour_of_day : Int
  days_since_prior_order : Option ℚ
  basket_size : Int
  reordered_items : Int
deriving DecidableEq

/-- The key of a `group by` over the six selected order columns (used
by `orders_joined` here and by `order_metrics` in
`instacart__order_features`). -/
structure OrderGroupKey where
  order_id : Int
  user_id : Int
  order_number : Int
  order_dow : Int
  order_hour_of_day : Int
  days_since_prior_order : Option ℚ
deriving DecidableEq

def orderGroupKey (o : OrderRow) : OrderGroupKey :=
  { order_id := o.order_id
    user_id := o.user_id
    order_number := o.order_number
    order_dow := o.order_dow
    order_hour_of_day := o.order_hour_of_day
    days_since_prior_order := o.days_since_prior_order }

/-- The `orders_joined` CTE: partition-filtered orders left-joined to
order lines, grouped by the six selected order columns, with
`count(op.product_id)` (lines actually matched) and
`sum(case when op.is_reordered = 1 then 1 else 0 end)`. -/
def orders_joined (orders : List OrderRow)
    (order_products : List OrderProductRow) (es : String) :
    List OrdersJoinedRow :=
  let j := leftJoin (orders.filter (fun o => decide (o.eval_set = es)))
    order_products (fun o op => decide (o.order_id = op.order_id))
  (groupBy (fun x => orderGroupKey x.1) j).map
    (fun kg =>
      { order_id := kg.1.order_id
        user_id := kg.1.user_id
        order_number := kg.1.order_number
        order_dow := kg.1.order_dow
        order_hour_of_day := kg.1.order_hour_of_day
        days_since_prior_order := kg.1.days_since_prior_order
        basket_size := Int.ofNat (kg.2.filter (fun x => x.2.isSome)).length
        reordered_items := sumZ (kg.2.map (fun x =>
          match x.2 with
          | some op => if op.is_reordered = 1 then 1 else 0
          | none => 0)) })

structure UserMetricsRow where
  user_id : Int
  user_total_orders : Int
  avg_days_between_orders : Option ℚ
  avg_order_hour : Option ℚ
  avg_basket_size : Option ℚ
  total_items_ordered : Int
  total_orders : Int
  overall_reorder_rate : ℚ
deriving DecidableEq

/-- The `user_metrics` CTE: rows of `orders_joined` with
`order_number >= min_orders`, grouped by user.  `overall_reorder_rate`
is the unguarded division `sum(reordered_items) / sum(basket_size)`:
when a group's total basket size is zero the statement fails, which
`Except.error` models.  (`std_days_between_orders`,
`typical_order_hour` and `preferred_order_day` are not modelled.) -/
def int_instacart__user_order_metrics (db : DB) (es : String)
    (min_orders : Int) : Except Unit (List UserMetricsRow) :=
  let oj := orders_joined db.orders db.order_products es
  mapME
    (fun kg : Int × List OrdersJoinedRow =>
      (divE (sumZ (kg.2.map (fun r => r.reordered_items)) : ℚ)
          (sumZ (kg.2.map (fun r => r.basket_size)) : ℚ)).map
        (fun rate =>
          { user_id := kg.1
            user_total_orders := maxZ (kg.2.map (fun r => r.order_number))
            avg_days_between_orders :=
              avgN (kg.2.map (fun r => r.days_since_prior_order))
            avg_order_hour :=
              avgQ (kg.2.map (fun r => (r.order_hour_of_day : ℚ)))
            avg_basket_size := avgQ (kg.2.map (fun r => (r.basket_size : ℚ)))
            total_items_ordered := sumZ (kg.2.map (fun r => r.basket_size))
            total_orders := countDistinct (kg.2.map (fun r => r.order_id))
            overall_reorder_rate := rate }))
    (groupBy (fun r => r.user_id)
      (oj.filter (fun r => decide (min_orders ≤ r.order_number))))

/-! ## `int_instacart__product_metrics` -/

structure ProductMetricsRow where
  product_id : Int
  aisle_id : Int
  department_id : Int
  product_orders : Int
  product_reorders : Int
  product_reorder_rate : ℚ
  product_avg_cart_position : Option ℚ
deriving DecidableEq

/-- `product_metrics`: order lines inner-joined to partition-filtered
orders and to products, grouped by `(product_id, aisle_id,
department_id)`.  `product_reorder_rate` divides by
`count(distinct order_id)` without a guard; `product_metrics_ok` shows
the divisor is positive on every group, so the division never fails. -/
def int_instacart__product_metrics (db : DB) (es : String) :
    Except Unit (List ProductMetricsRow) :=
  let j := innerJoin
    (innerJoin db.order_products
      (db.orders.filter (fun o => decide (o.eval_set = es)))
      (fun op o => decide (op.order_id = o.order_id)))
    db.products (fun x p => decide (x.1.product_id = p.product_id))
  mapME
    (fun kg : (Int × Int × Int) × List ((OrderProductRow × OrderRow) × ProductRow) =>
      (divE
          (sumZ (kg.2.map (fun x =>
            if x.1.1.is_reordered = 1 then 1 else 0)) : ℚ)
          (countDistinct (kg.2.map (fun x => x.1.1.order_id)) : ℚ)).map
        (fun rate =>
          { product_id := kg.1.1
            aisle_id := kg.1.2.1
            department_id := kg.1.2.2
            product_orders := countDistinct (kg.2.map (fun x => x.1.1.order_id))
            product_reorders := sumZ (kg.2.map (fun x =>
              if x.1.1.is_reordered = 1 then 1 else 0))
            product_reorder_rate := rate
            product_avg_cart_position :=
              avgQ (kg.2.map (fun x => (x.1.1.cart_position : ℚ))) }))
    (groupBy (fun x => (x.1.1.product_id, x.2.aisle_id, x.2.department_id)) j)

/-! ## `instacart__user_features` -/

/-- `last_orders` (`row_number()` per user by `order_number desc`)
filtered to `rn = 1`: one row per user holding a maximal-`order_number`
order of that user's partition rows.  Ties on `order_number` are not
ordered by the SQL; this materialization keeps the first tied row. -/
def last_order_per_user (orders : List OrderRow) (es : String) :
    List (Int × OrderRow) :=
  (groupBy (fun o => o.user_id)
      (orders.filter (fun o => decide (o.eval_set = es)))).filterMap
    (fun kg => (argmaxBy (fun o => o.order_number) kg.2).map
      (fun o => (kg.1, o)))

/-- `distinct_products`: `(user_id, count(distinct product_id))` over
partition-filtered orders joined to order lines. -/
def distinct_products (orders : List OrderRow)
    (order_products : List OrderProductRow) (es : String) :
    List (Int × Int) :=
  (groupBy (fun x : OrderRow × OrderProductRow => x.1.user_id)
      (innerJoin (orders.filter (fun o => decide (o.eval_set = es)))
        order_products (fun o op => decide (o.order_id = op.order_id)))).map
    (fun kg => (kg.1, countDistinct (kg.2.map (fun x => x.2.product_id))))

structure ReorderStatsRow where
  user_id : Int
  total_reordered_products : Int
  reorder_rate : Option ℚ
deriving DecidableEq

/-- `reorder_stats`: per user, `sum(op.is_reordered)` and
`sum(op.is_reordered) / nullif(count(op.product_id), 0)`. -/
def reorder_stats (orders : List OrderRow)
    (order_products : List OrderProductRow) (es : String) :
    List ReorderStatsRow :=
  (groupBy (fun x : OrderRow × OrderProductRow => x.1.user_id)
      (innerJoin (orders.filter (fun o => decide (o.eval_set = es)))
        order_products (fun o op => decide (o.order_id = op.order_id)))).map
    (fun kg =>
      { user_id := kg.1
        total_reordered_products :=
          sumZ (kg.2.map (fun x => x.2.is_reordered))
        reorder_rate :=
          divN (sumZ (kg.2.map (fun x => x.2.is_reordered)) : ℚ)
            (nullif (kg.2.length : ℚ) 0) })

structure UserFeaturesRow where
  user_id : Int
  user_total_orders : Int
  avg_days_between_orders : Option ℚ
  avg_order_hour : Option ℚ
  avg_basket_size : Option ℚ
  total_items_ordered : Int
  distinct_products_count : Int
  avg_unique_products_per_order : Option ℚ
  total_reordered_products : Int
  reorder_rate : Option ℚ
  last_order_dow : Int
  last_order_hour : Int
  last_order_days_since_prior : Option ℚ
deriving DecidableEq

/-- The `final` select of `instacart__user_features`: user metrics
inner-joined on `user_id` to `distinct_products`, `reorder_stats` and
`last_order_per_user`. -/
def instacart__user_features (db : DB) (es : String) (min_orders : Int) :
    Except Unit (List UserFeaturesRow) := do
  let um ← int_instacart__user_order_metrics db es min_orders
  let dp := distinct_products db.orders db.order_products es
  let rs := reorder_stats db.orders db.order_products es
  let lo := last_order_per_user db.orders es
  let j1 := innerJoin um dp (fun a b => decide (a.user_id = b.1))
  let j2 := innerJoin j1 rs (fun a b => decide (a.1.user_id = b.user_id))
  let j3 := innerJoin j2 lo (fun a b => decide (a.1.1.user_id = b.1))
  pure (j3.map (fun x =>
    { user_id := x.1.1.1.user_id
      user_total_orders := x.1.1.1.user_total_orders
      avg_days_between_orders := x.1.1.1.avg_days_between_orders
      avg_order_hour := x.1.1.1.avg_order_hour
      avg_basket_size := x.1.1.1.avg_basket_size
      total_items_ordered := x.1.1.1.total_items_ordered
      distinct_products_count := x.1.1.2.2
      avg_unique_products_per_order :=
        divN (x.1.1.2.2 : ℚ) (nullif (x.1.1.1.total_orders : ℚ) 0)
      total_reordered_products := x.1.2.total_reordered_products
      reorder_rate := x.1.2.reorder_rate
      last_order_dow := x.2.2.order_dow
      last_order_hour := x.2.2.order_hour_of_day
      last_order_days_since_prior := x.2.2.days_since_prior_order }))

/-! ## `instacart__order_features` -/

structure OrderMetricsRow where
  order_id : Int
  user_id : Int
  order_number : Int
  order_dow : Int
  order_hour_of_day : Int
  days_since_prior_order : Option ℚ
  basket_size : Int
  num_reordered_items : Int
  reorder_ratio : Option ℚ
  avg_cart_position : Option ℚ
  min_cart_position : Option Int
  max_cart_position : Option Int
deriving DecidableEq

/-- `order_metrics`: partition-filtered orders left-joined to order
lines, grouped by the six order columns, with basket size, reorder
count, the `nullif`-guarded `reorder_ratio` and cart-position
statistics. -/
def order_metrics (orders : List OrderRow)
    (order_products : List OrderProductRow) (es : String) :
    List OrderMetricsRow :=
  let j := leftJoin (orders.filter (fun o => decide (o.eval_set = es)))
    order_products (fun o op => decide (o.order_id = op.order_id))
  (groupBy (fun x => orderGroupKey x.1) j).map
    (fun kg =>
      { order_id := kg.1.order_id
        user_id := kg.1.user_id
        order_number := kg.1.order_number
        order_dow := kg.1.order_dow
        order_hour_of_day := kg.1.order_hour_of_day
        days_since_prior_order := kg.1.days_since_prior_order
        basket_size := Int.ofNat (kg.2.filter (fun x => x.2.isSome)).length
        num_reordered_items := sumZ (kg.2.map (fun x =>
          match x.2 with
          | some op => if op.is_reordered = 1 then 1 else 0
          | none => 0))
        reorder_ratio :=
          divN (sumZ (kg.2.map (fun x =>
              match x.2 with
              | some op => if op.is_reordered = 1 then 1 else 0
              | none => 0)) : ℚ)
            (nullif
              (Int.ofNat (kg.2.filter (fun x => x.2.isSome)).length : ℚ) 0)
        avg_cart_position := avgN (kg.2.map (fun x =>
          x.2.map (fun op => (op.cart_position : ℚ))))
        min_cart_position := minN (kg.2.map (fun x =>
          x.2.map (fun op => op.cart_position)))
        max_cart_position := maxN (kg.2.map (fun x =>
          x.2.map (fun op => op.cart_position))) })

structure PrevOrderMetricsRow where
  user_id : Int
  order_number : Int
  order_id : Int
  prev_basket_size : Option Int
  prev_reorder_ratio : Option ℚ
  prev_order_dow : Option Int
  prev_order_hour : Option Int
deriving DecidableEq

/-- `prev_order_metrics`: partition-filtered orders inner-joined to
`order_metrics`, with `lag(...) over (partition by user_id order by
order_number)` columns.  `lag` is materialized as the row with the
greatest `order_number` strictly below the current row's, which agrees
with SQL whenever a user's order numbers are duplicate-free. -/
def prev_order_metrics (orders : List OrderRow)
    (order_products : List OrderProductRow) (es : String) :
    List PrevOrderMetricsRow :=
  let om := order_metrics orders order_products es
  let j := innerJoin (orders.filter (fun o => decide (o.eval_set = es)))
    om (fun o m => decide (o.order_id = m.order_id))
  j.map (fun x =>
    let prev := argmaxBy (fun y : OrderRow × OrderMetricsRow =>
        y.1.order_number)
      (j.filter (fun y => decide (y.1.user_id = x.1.user_id) &&
        decide (y.1.order_number < x.1.order_number)))
    { user_id := x.1.user_id
      order_number := x.1.order_number
      order_id := x.1.order_id
      prev_basket_size := prev.map (fun y => y.2.basket_size)
      prev_reorder_ratio := prev.bind (fun y => y.2.reorder_ratio)
      prev_order_dow := prev.map (fun y => y.1.order_dow)
      prev_order_hour := prev.map (fun y => y.1.order_hour_of_day) })

/-- `product_diversity`: per order, the distinct aisle and department
counts of its lines (orders ⋈ order lines ⋈ products). -/
def product_diversity (db : DB) (es : String) : List (Int × Int × Int) :=
  (groupBy (fun x => x.1.1.order_id)
      (innerJoin
        (innerJoin (db.orders.filter (fun o => decide (o.eval_set = es)))
          db.order_products (fun o op => decide (o.order_id = op.order_id)))
        db.products (fun x p => decide (x.2.product_id = p.product_id)))).map
    (fun kg =>
      (kg.1, countDistinct (kg.2.map (fun x => x.2.aisle_id)),
        countDistinct (kg.2.map (fun x => x.2.department_id))))

/-- The day-part `case` of `instacart__order_features` (its hour
buckets are the subject of C10). -/
def day_part_of (h : Int) : String :=
  if 5 ≤ h ∧ h ≤ 9 then "morning"
  else if 10 ≤ h ∧ h ≤ 14 then "midday"
  else if 15 ≤ h ∧ h ≤ 19 then "evening"
  else "night"

structure OrderFeaturesRow where
  order_id : Int
  user_id : Int
  order_number : Int
  order_dow : Int
  order_hour_of_day : Int
  days_since_prior_order : Option ℚ
  basket_size : Int
  num_reordered_items : Int
  reorder_ratio : Option ℚ
  avg_cart_position : Option ℚ
  min_cart_position : Option Int
  max_cart_position : Option Int
  unique_aisles : Option Int
  unique_departments : Option Int
  aisle_diversity_ratio : Option ℚ
  department_diversity_ratio : Option ℚ
  basket_size_delta : Option Int
  reorder_ratio_delta : Option ℚ
  same_day_as_last_order : Int
  similar_hour_as_last_order : Int
  day_part : String
deriving DecidableEq

/-- The `final` select of `instacart__order_features`: `order_metrics`
left-joined to `prev_order_metrics` and `product_diversity` on
`order_id`. -/
def instacart__order_features (db : DB) (es : String) :
    List OrderFeaturesRow :=
  let om := order_metrics db.orders db.order_products es
  let pom := prev_order_metrics db.orders db.order_products es
  let pd := product_diversity db es
  let j := leftJoin (leftJoin om pom
      (fun a b => decide (a.order_id = b.order_id)))
    pd (fun a b => decide (a.1.order_id = b.1))
  j.map (fun x =>
    { order_id := x.1.1.order_id
      user_id := x.1.1.user_id
      order_number := x.1.1.order_number
      order_dow := x.1.1.order_dow
      order_hour_of_day := x.1.1.order_hour_of_day
      days_since_prior_order := x.1.1.days_since_prior_order
      basket_size := x.1.1.basket_size
      num_reordered_items := x.1.1.num_reordered_items
      reorder_ratio := x.1.1.reorder_ratio
      avg_cart_position := x.1.1.avg_cart_position
      min_cart_position := x.1.1.min_cart_position
      max_cart_position := x.1.1.max_cart_position
      unique_aisles := x.2.map (fun y => y.2.1)
      unique_departments := x.2.map (fun y => y.2.2)
      aisle_diversity_ratio :=
        divNN (x.2.map (fun y => (y.2.1 : ℚ)))
          (nullif (x.1.1.basket_size : ℚ) 0)
      department_diversity_ratio :=
        divNN (x.2.map (fun y => (y.2.2 : ℚ)))
          (nullif (x.1.1.basket_size : ℚ) 0)
      basket_size_delta := (x.1.2.bind (fun y => y.prev_basket_size)).map
        (fun b => x.1.1.basket_size - b)
      reorder_ratio_delta := x.1.1.reorder_ratio.bind (fun cr =>
        (x.1.2.bind (fun y => y.prev_reorder_ratio)).map (fun pr => cr - pr))
      same_day_as_last_order :=
        match x.1.2.bind (fun y => y.prev_order_dow) with
        | some d => if |x.1.1.order_dow - d| = 0 then 1 else 0
        | none => 0
      similar_hour_as_last_order :=
        match x.1.2.bind (fun y => y.prev_order_hour) with
        | some hh => if |x.1.1.order_hour_of_day - hh| ≤ 3 then 1 else 0
        | none => 0
      day_part := day_part_of x.1.1.order_hour_of_day })

/-! ## `int_instacart__user_product_metrics` -/

structure UserProductMetricsRow where
  user_id : Int
  product_id : Int
  up_orders : Int
  up_last_order_id : Int
  up_sum_pos_in_cart : Int
  up_avg_cart_position : Option ℚ
  up_last_order_hour : Int
  up_orders_ratio : Option ℚ
  up_orders_since_last : Int
  up_delta_hour_vs_last : Int
deriving DecidableEq

/-- `user_product_metrics`: the `user_orders` join grouped by
`(user_id, product_id)`. -/
def int_instacart__user_product_metrics (db : DB) (es : String) :
    List UserProductMetricsRow :=
  let user_orders := innerJoin
    (db.orders.filter (fun o => decide (o.eval_set = es)))
    db.order_products (fun o op => decide (o.order_id = op.order_id))
  (groupBy (fun x => (x.1.user_id, x.2.product_id)) user_orders).map
    (fun kg =>
      { user_id := kg.1.1
        product_id := kg.1.2
        up_orders := countDistinct (kg.2.map (fun x => x.1.order_id))
        up_last_order_id := maxZ (kg.2.map (fun x => x.1.order_number))
        up_sum_pos_in_cart := sumZ (kg.2.map (fun x => x.2.cart_position))
        up_avg_cart_position :=
          avgQ (kg.2.map (fun x => (x.2.cart_position : ℚ)))
        up_last_order_hour := maxZ (kg.2.map (fun x => x.1.order_hour_of_day))
        up_orders_ratio :=
          divN (countDistinct (kg.2.map (fun x => x.1.order_id)) : ℚ)
            (nullif (maxZ (kg.2.map (fun x => x.1.order_number)) : ℚ) 0)
        up_orders_since_last := maxZ (kg.2.map (fun x => x.1.order_number))
        up_delta_hour_vs_last :=
          |maxZ (kg.2.map (fun x => x.1.order_hour_of_day)) -
            minZ (kg.2.map (fun x => x.1.order_hour_of_day))| })

/-! ## `instacart__product_features` -/

/-- `row_number() over (partition by pkey order by score desc)`,
materialized positionally: a row's number is one plus the count of
partition rows sorting strictly earlier (greater score, or equal score
and earlier input position).  The `order by` clause carries no
tiebreak, so this is one of the outputs SQL may produce; the set of
all of them is `IsRowNumberingOf`. -/
def row_number_over {α κ : Type} [DecidableEq κ] (pkey : α → κ)
    (score : α → Int) (l : List α) : List (α × Nat) :=
  l.enum.map (fun p =>
    (p.2, 1 + (l.enum.filter (fun q => decide (pkey q.2 = pkey p.2) &&
      (decide (score p.2 < score q.2) ||
        (decide (score q.2 = score p.2) && decide (q.1 < p.1))))).length))

/-- `department_rankings`: products ranked inside their department by
`product_orders desc`. -/
def department_rankings (pm : List ProductMetricsRow) :
    List (ProductMetricsRow × Nat) :=
  row_number_over (fun r => r.department_id) (fun r => r.product_orders) pm

/-- `aisle_rankings`: products ranked inside their aisle by
`product_orders desc`. -/
def aisle_rankings (pm : List ProductMetricsRow) :
    List (ProductMetricsRow × Nat) :=
  row_number_over (fun r => r.aisle_id) (fun r => r.product_orders) pm

/-- The `(product_id, order_hour_of_day, count(*))` grouping feeding
`product_peak_hours`. -/
def product_hour_counts (db : DB) (es : String) : List (Int × Int × Int) :=
  (groupBy (fun x : OrderProductRow × OrderRow =>
      (x.1.product_id, x.2.order_hour_of_day))
      (innerJoin db.order_products
        (db.orders.filter (fun o => decide (o.eval_set = es)))
        (fun op o => decide (op.order_id = o.order_id)))).map
    (fun kg => (kg.1.1, kg.1.2, (kg.2.length : Int)))

/-- `product_peak_hours` (`qualify rn = 1`): per product, a bucket with
the maximal order count (first tied bucket in grouping order). -/
def product_peak_hours (db : DB) (es : String) : List (Int × Int × Int) :=
  (groupBy (fun x : Int × Int × Int => x.1)
      (product_hour_counts db es)).filterMap
    (fun kg => (argmaxBy (fun x => x.2.2) kg.2).map
      (fun x => (kg.1, x.2.1, x.2.2)))

/-- The `(product_id, order_dow, count(*))` grouping feeding
`product_peak_days`. -/
def product_day_counts (db : DB) (es : String) : List (Int × Int × Int) :=
  (groupBy (fun x : OrderProductRow × OrderRow =>
      (x.1.product_id, x.2.order_dow))
      (innerJoin db.order_products
        (db.orders.filter (fun o => decide (o.eval_set = es)))
        (fun op o => decide (op.order_id = o.order_id)))).map
    (fun kg => (kg.1.1, kg.1.2, (kg.2.length : Int)))

/-- `product_peak_days` (`qualify rn = 1`). -/
def product_peak_days (db : DB) (es : String) : List (Int × Int × Int) :=
  (groupBy (fun x : Int × Int × Int => x.1)
      (product_day_counts db es)).filterMap
    (fun kg => (argmaxBy (fun x => x.2.2) kg.2).map
      (fun x => (kg.1, x.2.1, x.2.2)))

/-- `department_stats`: per department, the average product order count
and average product reorder rate. -/
def department_stats (pm : List ProductMetricsRow) :
    List (Int × Option ℚ × Option ℚ) :=
  (groupBy (fun r => r.department_id) pm).map
    (fun kg =>
      (kg.1, avgQ (kg.2.map (fun r => (r.product_orders : ℚ))),
        avgQ (kg.2.map (fun r => r.product_reorder_rate))))

structure ProductFeaturesRow where
  product_id : Int
  product_name : String
  aisle_id : Int
  aisle_name : String
  department_id : Int
  department_name : String
  product_orders : Int
  product_reorders : Int
  product_reorder_rate : ℚ
  product_avg_cart_position : Option ℚ
  department_popularity_rank : Int
  aisle_popularity_rank : Int
  peak_hour : Option Int
  peak_day : Option Int
  department_order_ratio : Option ℚ
  department_reorder_ratio : Option ℚ
deriving DecidableEq

/-- The `final` select of `instacart__product_features`: products
inner-joined to metrics, aisles, departments, both rankings and the
department stats, left-joined to the peak hour/day selections. -/
def instacart__product_features (db : DB) (es : String) :
    Except Unit (List ProductFeaturesRow) := do
  let pm ← int_instacart__product_metrics db es
  let dr := department_rankings pm
  let ar := aisle_rankings pm
  let pph := product_peak_hours db es
  let ppd := product_peak_days db es
  let ds := department_stats pm
  let j1 := innerJoin db.products pm
    (fun p b => decide (p.product_id = b.product_id))
  let j2 := innerJoin j1 db.aisles
    (fun x a => decide (x.1.aisle_id = a.aisle_id))
  let j3 := innerJoin j2 db.departments
    (fun x d => decide (x.1.1.department_id = d.department_id))
  let j4 := innerJoin j3 dr
    (fun x b => decide (x.1.1.1.product_id = b.1.product_id))
  let j5 := innerJoin j4 ar
    (fun x b => decide (x.1.1.1.1.product_id = b.1.product_id))
  let j6 := innerJoin j5 ds
    (fun x b => decide (x.1.1.1.1.1.department_id = b.1))
  let j7 := leftJoin j6 pph
    (fun x b => decide (x.1.1.1.1.1.1.product_id = b.1))
  let j8 := leftJoin j7 ppd
    (fun x b => decide (x.1.1.1.1.1.1.1.product_id = b.1))
  pure (j8.map (fun x =>
    { product_id := x.1.1.1.1.1.1.1.1.product_id
      product_name := x.1.1.1.1.1.1.1.1.product_name
      aisle_id := x.1.1.1.1.1.1.2.aisle_id
      aisle_name := x.1.1.1.1.1.1.2.aisle_name
      department_id := x.1.1.1.1.1.2.department_id
      department_name := x.1.1.1.1.1.2.department_name
      product_orders := x.1.1.1.1.1.1.1.2.product_orders
      product_reorders := x.1.1.1.1.1.1.1.2.product_reorders
      product_reorder_rate := x.1.1.1.1.1.1.1.2.product_reorder_rate
      product_avg_cart_position :=
        x.1.1.1.1.1.1.1.2.product_avg_cart_position
      department_popularity_rank := (x.1.1.1.1.2.2 : Int)
      aisle_popularity_rank := (x.1.1.1.2.2 : Int)
      peak_hour := x.1.2.map (fun y => y.2.1)
      peak_day := x.2.map (fun y => y.2.1)
      department_order_ratio :=
        divN (x.1.1.1.1.1.1.1.2.product_orders : ℚ)
          (nullifN x.1.1.2.2.1 0)
      department_reorder_ratio :=
        divN x.1.1.1.1.1.1.1.2.product_reorder_rate
          (nullifN x.1.1.2.2.2 0) }))

/-! ## `instacart__user_product_features` -/

/-- `last_purchase` (`rn = 1` of `user_product_recency`): per
`(user_id, product_id)`, the `order_number` of a purchase with maximal
`order_number` (first tied row in grouping order). -/
def last_purchase (orders : List OrderRow)
    (order_products : List OrderProductRow) (es : String) :
    List (Int × Int × Int) :=
  (groupBy (fun x : OrderRow × OrderProductRow =>
      (x.1.user_id, x.2.product_id))
      (innerJoin (orders.filter (fun o => decide (o.eval_set = es)))
        order_products (fun o op => decide (o.order_id = op.order_id)))).filterMap
    (fun kg => (argmaxBy (fun x => x.1.order_number) kg.2).map
      (fun x => (kg.1.1, kg.1.2, x.1.order_number)))

/-- Hour bucket tests of `user_product_time_patterns`
(`between 5 and 9`, `between 10 and 14`, `between 15 and 19`,
`>= 20 or < 5`). -/
def in_morning (h : Int) : Bool := decide (5 ≤ h ∧ h ≤ 9)

def in_midday (h : Int) : Bool := decide (10 ≤ h ∧ h ≤ 14)

def in_evening (h : Int) : Bool := decide (15 ≤ h ∧ h ≤ 19)

def in_night (h : Int) : Bool := decide (20 ≤ h ∨ h < 5)

structure UptpRow where
  user_id : Int
  product_id : Int
  dow_0_purchases : Int
  dow_1_purchases : Int
  dow_2_purchases : Int
  dow_3_purchases : Int
  dow_4_purchases : Int
  dow_5_purchases : Int
  dow_6_purchases : Int
  morning_purchases : Int
  midday_purchases : Int
  evening_purchases : Int
  night_purchases : Int
deriving DecidableEq

/-- `user_product_time_patterns`: per `(user_id, product_id)`, purchase
counts by day of week and by day part. -/
def user_product_time_patterns (orders : List OrderRow)
    (order_products : List OrderProductRow) (es : String) :
    List UptpRow :=
  (groupBy (fun x : OrderRow × OrderProductRow =>
      (x.1.user_id, x.2.product_id))
      (innerJoin (orders.filter (fun o => decide (o.eval_set = es)))
        order_products (fun o op => decide (o.order_id = op.order_id)))).map
    (fun kg =>
      { user_id := kg.1.1
        product_id := kg.1.2
        dow_0_purchases := (kg.2.countP (fun x => decide (x.1.order_dow = 0)) : Int)
        dow_1_purchases := (kg.2.countP (fun x => decide (x.1.order_dow = 1)) : Int)
        dow_2_purchases := (kg.2.countP (fun x => decide (x.1.order_dow = 2)) : Int)
        dow_3_purchases := (kg.2.countP (fun x => decide (x.1.order_dow = 3)) : Int)
        dow_4_purchases := (kg.2.countP (fun x => decide (x.1.order_dow = 4)) : Int)
        dow_5_purchases := (kg.2.countP (fun x => decide (x.1.order_dow = 5)) : Int)
        dow_6_purchases := (kg.2.countP (fun x => decide (x.1.order_dow = 6)) : Int)
        morning_purchases := (kg.2.countP (fun x => in_morning x.1.order_hour_of_day) : Int)
        midday_purchases := (kg.2.countP (fun x => in_midday x.1.order_hour_of_day) : Int)
        evening_purchases := (kg.2.countP (fun x => in_evening x.1.order_hour_of_day) : Int)
        night_purchases := (kg.2.countP (fun x => in_night x.1.order_hour_of_day) : Int) })

/-- SQL `greatest` over the four day-part counts. -/
def greatest4 (a b c d : Int) : Int := max (max (max a b) c) d

/-- `dominant_day_parts`: the simple `case greatest(...) when ... `
chain — the first branch whose count equals the maximum wins, `night`
is the `else`. -/
def dominant_day_part (morning midday evening night : Int) : String :=
  let g := greatest4 morning midday evening night
  if g = morning then "morning"
  else if g = midday then "midday"
  else if g = evening then "evening"
  else "night"

/-- SQL `greatest` over the seven day-of-week counts. -/
def greatest7 (a b c d e f g : Int) : Int :=
  max (max (max (max (max (max a b) c) d) e) f) g

/-- `dominant_dows`: `case greatest(...) when dow_0 ... `, `6` as the
`else`. -/
def dominant_dow (d0 d1 d2 d3 d4 d5 d6 : Int) : Int :=
  let g := greatest7 d0 d1 d2 d3 d4 d5 d6
  if g = d0 then 0
  else if g = d1 then 1
  else if g = d2 then 2
  else if g = d3 then 3
  else if g = d4 then 4
  else if g = d5 then 5
  else 6

/-- `dominant_day_parts` as a relation over `user_product_time_patterns`. -/
def dominant_day_parts (uptp : List UptpRow) : List (Int × Int × String) :=
  uptp.map (fun r =>
    (r.user_id, r.product_id,
      dominant_day_part r.morning_purchases r.midday_purchases
        r.evening_purchases r.night_purchases))

/-- `dominant_dows` as a relation over `user_product_time_patterns`. -/
def dominant_dows (uptp : List UptpRow) : List (Int × Int × Int) :=
  uptp.map (fun r =>
    (r.user_id, r.product_id,
      dominant_dow r.dow_0_purchases r.dow_1_purchases r.dow_2_purchases
        r.dow_3_purchases r.dow_4_purchases r.dow_5_purchases
        r.dow_6_purchases))

structure UpnRow where
  user_id : Int
  product_id : Int
  up_orders : Int
  user_relative_frequency : Option ℚ
  product_relative_frequency : Option ℚ
  relative_cart_position : Option ℚ
deriving DecidableEq

/-- `user_product_normalized`: metrics joined to the user's
`avg_basket_size` and the product's `product_orders`, with the three
`nullif`-guarded normalizations. -/
def user_product_normalized (upm : List UserProductMetricsRow)
    (uas : List (Int × Option ℚ)) (pf : List (Int × Int × ℚ)) :
    List UpnRow :=
  (innerJoin (innerJoin upm uas (fun a b => decide (a.user_id = b.1)))
      pf (fun x b => decide (x.1.product_id = b.1))).map
    (fun x =>
      { user_id := x.1.1.user_id
        product_id := x.1.1.product_id
        up_orders := x.1.1.up_orders
        user_relative_frequency :=
          divN (x.1.1.up_orders : ℚ) (nullifN x.1.2.2 0)
        product_relative_frequency :=
          divN (x.1.1.up_orders : ℚ) (nullif (x.2.2.1 : ℚ) 0)
        relative_cart_position :=
          divNN x.1.1.up_avg_cart_position (nullifN x.1.2.2 0) })

/-! Snowflake's implicit number-to-varchar cast used by
`concat(user_id, '_', product_id)`: decimal digits, with a leading `-`
for negatives.  `natDecimalAux` carries an explicit fuel so that it is
structurally recursive (any fuel above the value is enough). -/

def natDecimalAux : Nat → Nat → List Nat
  | 0, _ => []
  | fuel+1, n => if n < 10 then [n] else natDecimalAux fuel (n / 10) ++ [n % 10]

def natDecimal (n : Nat) : List Nat := natDecimalAux (n + 1) n

def digitCh (d : Nat) : Char := Char.ofNat (48 + d)

def natStr (n : Nat) : String := String.mk ((natDecimal n).map digitCh)

def intStr (i : Int) : String :=
  if i < 0 then "-" ++ natStr i.natAbs else natStr i.toNat

structure UserProductFeaturesRow where
  user_id : Int
  product_id : Int
  user_product_id : String
  up_orders : Int
  up_last_order_id : Int
  up_sum_pos_in_cart : Int
  up_avg_cart_position : Option ℚ
  up_last_order_hour : Int
  up_orders_ratio : Option ℚ
  up_orders_since_last : Int
  up_delta_hour_vs_last : Int
  last_purchase_order_number : Option Int
  orders_since_last_purchase : Option Int
  dow_0_purchases : Option Int
  dow_1_purchases : Option Int
  dow_2_purchases : Option Int
  dow_3_purchases : Option Int
  dow_4_purchases : Option Int
  dow_5_purchases : Option Int
  dow_6_purchases : Option Int
  morning_purchases : Option Int
  midday_purchases : Option Int
  evening_purchases : Option Int
  night_purchases : Option Int
  dominant_day_part : Option String
  dominant_dow : Option Int
  user_relative_frequency : Option ℚ
  product_relative_frequency : Option ℚ
  relative_cart_position : Option ℚ
deriving DecidableEq

/-- The `final` select of `instacart__user_product_features`: metrics
inner-joined to user and product features, left-joined to the recency,
time-pattern, normalization and dominant-bucket CTEs;
`user_product_id` is `concat(user_id, '_', product_id)`. -/
def instacart__user_product_features (db : DB) (es : String)
    (min_orders : Int) : Except Unit (List UserProductFeaturesRow) := do
  let upm := int_instacart__user_product_metrics db es
  let uf ← instacart__user_features db es min_orders
  let pfull ← instacart__product_features db es
  let pf : List (Int × Int × ℚ) := pfull.map (fun r =>
    (r.product_id, r.product_orders, r.product_reorder_rate))
  let lp := last_purchase db.orders db.order_products es
  let uptp := user_product_time_patterns db.orders db.order_products es
  let uas : List (Int × Option ℚ) := uf.map (fun r =>
    (r.user_id, r.avg_basket_size))
  let upn := user_product_normalized upm uas pf
  let ddp := dominant_day_parts uptp
  let dd := dominant_dows uptp
  let j1 := innerJoin upm uf (fun a b => decide (a.user_id = b.user_id))
  let j2 := innerJoin j1 pf (fun a b => decide (a.1.product_id = b.1))
  let j3 := leftJoin j2 lp (fun a b =>
    decide (a.1.1.user_id = b.1) && decide (a.1.1.product_id = b.2.1))
  let j4 := leftJoin j3 uptp (fun a b =>
    decide (a.1.1.1.user_id = b.user_id) &&
      decide (a.1.1.1.product_id = b.product_id))
  let j5 := leftJoin j4 upn (fun a b =>
    decide (a.1.1.1.1.user_id = b.user_id) &&
      decide (a.1.1.1.1.product_id = b.product_id))
  let j6 := leftJoin j5 ddp (fun a b =>
    decide (a.1.1.1.1.1.user_id = b.1) &&
      decide (a.1.1.1.1.1.product_id = b.2.1))
  let j7 := leftJoin j6 dd (fun a b =>
    decide (a.1.1.1.1.1.1.user_id = b.1) &&
      decide (a.1.1.1.1.1.1.product_id = b.2.1))
  pure (j7.map (fun x =>
    { user_id := x.1.1.1.1.1.1.1.user_id
      product_id := x.1.1.1.1.1.1.1.product_id
      user_product_id :=
        intStr x.1.1.1.1.1.1.1.user_id ++ "_" ++
          intStr x.1.1.1.1.1.1.1.product_id
      up_orders := x.1.1.1.1.1.1.1.up_orders
      up_last_order_id := x.1.1.1.1.1.1.1.up_last_order_id
      up_sum_pos_in_cart := x.1.1.1.1.1.1.1.up_sum_pos_in_cart
      up_avg_cart_position := x.1.1.1.1.1.1.1.up_avg_cart_position
      up_last_order_hour := x.1.1.1.1.1.1.1.up_last_order_hour
      up_orders_ratio := x.1.1.1.1.1.1.1.up_orders_ratio
      up_orders_since_last := x.1.1.1.1.1.1.1.up_orders_since_last
      up_delta_hour_vs_last := x.1.1.1.1.1.1.1.up_delta_hour_vs_last
      last_purchase_order_number := x.1.1.1.1.2.map (fun y => y.2.2)
      orders_since_last_purchase := x.1.1.1.1.2.map (fun y =>
        x.1.1.1.1.1.1.2.user_total_orders - y.2.2)
      dow_0_purchases := x.1.1.1.2.map (fun y => y.dow_0_purchases)
      dow_1_purchases := x.1.1.1.2.map (fun y => y.dow_1_purchases)
      dow_2_purchases := x.1.1.1.2.map (fun y => y.dow_2_purchases)
      dow_3_purchases := x.1.1.1.2.map (fun y => y.dow_3_purchases)
      dow_4_purchases := x.1.1.1.2.map (fun y => y.dow_4_purchases)
      dow_5_purchases := x.1.1.1.2.map (fun y => y.dow_5_purchases)
      dow_6_purchases := x.1.1.1.2.map (fun y => y.dow_6_purchases)
      morning_purchases := x.1.1.1.2.map (fun y => y.morning_purchases)
      midday_purchases := x.1.1.1.2.map (fun y => y.midday_purchases)
      evening_purchases := x.1.1.1.2.map (fun y => y.evening_purchases)
      night_purchases := x.1.1.1.2.map (fun y => y.night_purchases)
      dominant_day_part := x.1.2.map (fun y => y.2.2)
      dominant_dow := x.2.map (fun y => y.2.2)
      user_relative_frequency := x.1.1.2.map (fun y =>
        y.user_relative_frequency) |>.join
      product_relative_frequency := x.1.1.2.map (fun y =>
        y.product_relative_frequency) |>.join
      relative_cart_position := x.1.1.2.map (fun y =>
        y.relative_cart_position) |>.join }))

/-! ## `instacart__training_features`

Modelled from the spec: the Training Assembler
(`models/marts/ml/instacart__training_features.sql`) is declared in the
project scaffold (`create-files.sh`) and its schema tests, but its SQL
body is absent from the repository sources.  Per spec §4.5 it joins
`UserFeatures`, `ProductFeatures`, `OrderFeatures` and
`UserProductFeatures` plus the raw reorder label onto the rows of the
designated target partition, producing one row per
`(user_id, product_id, order_id)` of that partition. -/

structure TrainingRow where
  user_id : Int
  product_id : Int
  order_id : Int
  reordered : Int
  user_feats : Option UserFeaturesRow
  product_feats : Option ProductFeaturesRow
  order_feats : Option OrderFeaturesRow
  up_feats : Option UserProductFeaturesRow
deriving DecidableEq

/-- Modelled from the spec: one training row per order line of the
target partition, with each feature table looked up by the row's key. -/
def training_assemble (db : DB) (target_set : String)
    (uf : List UserFeaturesRow) (pf : List ProductFeaturesRow)
    (ofs : List OrderFeaturesRow) (upf : List UserProductFeaturesRow) :
    List TrainingRow :=
  (db.orders.filter (fun o => decide (o.eval_set = target_set))).flatMap
    (fun o => (db.order_products.filter
        (fun l => decide (l.order_id = o.order_id))).map
      (fun l =>
        { user_id := o.user_id
          product_id := l.product_id
          order_id := o.order_id
          reordered := l.is_reordered
          user_feats := uf.find? (fun r => decide (r.user_id = o.user_id))
          product_feats :=
            pf.find? (fun r => decide (r.product_id = l.product_id))
          order_feats :=
            ofs.find? (fun r => decide (r.order_id = o.order_id))
          up_feats := upf.find? (fun r =>
            decide (r.user_id = o.user_id) &&
              decide (r.product_id = l.product_id)) }))

/-- Modelled from the spec: the training table joins the four
prior-partition feature tables onto each target-partition order line,
carrying the line's `reordered` label. -/
def instacart__training_features (db : DB) (target_set es : String)
    (min_orders : Int) : Except Unit (List TrainingRow) := do
  let uf ← instacart__user_features db es min_orders
  let pf ← instacart__product_features db es
  let ofs := instacart__order_features db es
  let upf ← instacart__user_product_features db es min_orders
  pure (training_assemble db target_set uf pf ofs upf)

/-! ## C6 — dominant-bucket selection -/

/-- The spec's reading of dominant-bucket selection (§4.3): an explicit
ordered comparison chain over the fixed enumeration morning, midday,
evening, night — the first listed bucket whose count is at least every
later bucket's count wins. -/
def day_part_priority (morning midday evening night : Int) : String :=
  if midday ≤ morning ∧ evening ≤ morning ∧ night ≤ morning then "morning"
  else if evening ≤ midday ∧ night ≤ midday then "midday"
  else if night ≤ evening then "evening"
  else "night"

/-- The spec's comparison chain for the day-of-week buckets, `0`
first. -/
def dow_priority (d0 d1 d2 d3 d4 d5 d6 : Int) : Int :=
  if d1 ≤ d0 ∧ d2 ≤ d0 ∧ d3 ≤ d0 ∧ d4 ≤ d0 ∧ d5 ≤ d0 ∧ d6 ≤ d0 then 0
  else if d2 ≤ d1 ∧ d3 ≤ d1 ∧ d4 ≤ d1 ∧ d5 ≤ d1 ∧ d6 ≤ d1 then 1
  else if d3 ≤ d2 ∧ d4 ≤ d2 ∧ d5 ≤ d2 ∧ d6 ≤ d2 then 2
  else if d4 ≤ d3 ∧ d5 ≤ d3 ∧ d6 ≤ d3 then 3
  else if d5 ≤ d4 ∧ d6 ≤ d4 then 4
  else if d6 ≤ d5 then 5
  else 6

theorem dominant_day_part_eq_priority (m mi e n : Int) :
    dominant_day_part m mi e n = day_part_priority m mi e n := by
  have hm : m ≤ greatest4 m mi e n :=
    le_trans (le_trans (le_max_left m mi) (le_max_left _ e)) (le_max_left _ n)
  have hmi : mi ≤ greatest4 m mi e n :=
    le_trans (le_trans (le_max_right m mi) (le_max_left _ e)) (le_max_left _ n)
  have he : e ≤ greatest4 m mi e n :=
    le_trans (le_max_right _ e) (le_max_left _ n)
  have hn : n ≤ greatest4 m mi e n := le_max_right _ n
  have hmem : greatest4 m mi e n = m ∨ greatest4 m mi e n = mi ∨
      greatest4 m mi e n = e ∨ greatest4 m mi e n = n := by
    unfold greatest4
    rcases max_choice (max (max m mi) e) n with h4 | h4
    · rw [h4]
      rcases max_choice (max m mi) e with h3 | h3
      · rw [h3]
        rcases max_choice m mi with h2 | h2
        · rw [h2]; exact Or.inl rfl
        · rw [h2]; exact Or.inr (Or.inl rfl)
      · rw [h3]; exact Or.inr (Or.inr (Or.inl rfl))
    · rw [h4]; exact Or.inr (Or.inr (Or.inr rfl))
  simp only [dominant_day_part, day_part_priority]
  by_cases h1 : mi ≤ m ∧ e ≤ m ∧ n ≤ m
  · have hg : greatest4 m mi e n = m := by omega
    rw [if_pos hg, if_pos h1]
  · have hgm : greatest4 m mi e n ≠ m := by omega
    by_cases h2 : e ≤ mi ∧ n ≤ mi
    · have hg : greatest4 m mi e n = mi := by omega
      rw [if_neg hgm, if_pos hg, if_neg h1, if_pos h2]
    · have hgmi : greatest4 m mi e n ≠ mi := by omega
      by_cases h3 : n ≤ e
      · have hg : greatest4 m mi e n = e := by omega
        rw [if_neg hgm, if_neg hgmi, if_pos hg, if_neg h1, if_neg h2,
          if_pos h3]
      · have hge : greatest4 m mi e n ≠ e := by omega
        rw [if_neg hgm, if_neg hgmi, if_neg hge, if_neg h1, if_neg h2,
          if_neg h3]

theorem dominant_dow_eq_priority (d0 d1 d2 d3 d4 d5 d6 : Int) :
    dominant_dow d0 d1 d2 d3 d4 d5 d6 =
      dow_priority d0 d1 d2 d3 d4 d5 d6 := by
  set g := greatest7 d0 d1 d2 d3 d4 d5 d6 with hgdef
  have h0 : d0 ≤ g := by
    rw [hgdef]; unfold greatest7
    exact le_trans (le_trans (le_trans (le_trans (le_trans
      (le_max_left d0 d1) (le_max_left _ d2)) (le_max_left _ d3))
      (le_max_left _ d4)) (le_max_left _ d5)) (le_max_left _ d6)
  have h1b : d1 ≤ g := by
    rw [hgdef]; unfold greatest7
    exact le_trans (le_trans (le_trans (le_trans (le_trans
      (le_max_right d0 d1) (le_max_left _ d2)) (le_max_left _ d3))
      (le_max_left _ d4)) (le_max_left _ d5)) (le_max_left _ d6)
  have h2b : d2 ≤ g := by
    rw [hgdef]; unfold greatest7
    exact le_trans (le_trans (le_trans (le_trans
      (le_max_right _ d2) (le_max_left _ d3))
      (le_max_left _ d4)) (le_max_left _ d5)) (le_max_left _ d6)
  have h3b : d3 ≤ g := by
    rw [hgdef]; unfold greatest7
    exact le_trans (le_trans (le_trans
      (le_max_right _ d3) (le_max_left _ d4)) (le_max_left _ d5))
      (le_max_left _ d6)
  have h4b : d4 ≤ g := by
    rw [hgdef]; unfold greatest7
    exact le_trans (le_trans (le_max_right _ d4) (le_max_left _ d5))
      (le_max_left _ d6)
  have h5b : d5 ≤ g := by
    rw [hgdef]; unfold greatest7
    exact le_trans (le_max_right _ d5) (le_max_left _ d6)
  have h6b : d6 ≤ g := by
    rw [hgdef]; unfold greatest7
    exact le_max_right _ d6
  have hmem : g = d0 ∨ g = d1 ∨ g = d2 ∨ g = d3 ∨ g = d4 ∨ g = d5 ∨
      g = d6 := by
    rw [hgdef]; unfold greatest7
    rcases max_choice (max (max (max (max (max d0 d1) d2) d3) d4) d5) d6
      with h | h <;> rw [h]
    · rcases max_choice (max (max (max (max d0 d1) d2) d3) d4) d5
        with h | h <;> rw [h]
      · rcases max_choice (max (max (max d0 d1) d2) d3) d4
          with h | h <;> rw [h]
        · rcases max_choice (max (max d0 d1) d2) d3 with h | h <;> rw [h]
          · rcases max_choice (max d0 d1) d2 with h | h <;> rw [h]
            · rcases max_choice d0 d1 with h | h <;> rw [h]
              · exact Or.inl rfl
              · exact Or.inr (Or.inl rfl)
            · exact Or.inr (Or.inr (Or.inl rfl))
          · exact Or.inr (Or.inr (Or.inr (Or.inl rfl)))
        · exact Or.inr (Or.inr (Or.inr (Or.inr (Or.inl rfl))))
      · exact Or.inr (Or.inr (Or.inr (Or.inr (Or.inr (Or.inl rfl)))))
    · exact Or.inr (Or.inr (Or.inr (Or.inr (Or.inr (Or.inr rfl)))))
  simp only [dominant_dow, dow_priority, ← hgdef]
  by_cases c0 : d1 ≤ d0 ∧ d2 ≤ d0 ∧ d3 ≤ d0 ∧ d4 ≤ d0 ∧ d5 ≤ d0 ∧ d6 ≤ d0
  · have hg : g = d0 := by omega
    rw [if_pos hg, if_pos c0]
  · have hng : g ≠ d0 := by omega
    by_cases c1 : d2 ≤ d1 ∧ d3 ≤ d1 ∧ d4 ≤ d1 ∧ d5 ≤ d1 ∧ d6 ≤ d1
    · have hg : g = d1 := by omega
      rw [if_neg hng, if_pos hg, if_neg c0, if_pos c1]
    · have hng1 : g ≠ d1 := by omega
      by_cases c2 : d3 ≤ d2 ∧ d4 ≤ d2 ∧ d5 ≤ d2 ∧ d6 ≤ d2
      · have hg : g = d2 := by omega
        rw [if_neg hng, if_neg hng1, if_pos hg, if_neg c0, if_neg c1,
          if_pos c2]
      · have hng2 : g ≠ d2 := by omega
        by_cases c3 : d4 ≤ d3 ∧ d5 ≤ d3 ∧ d6 ≤ d3
        · have hg : g = d3 := by omega
          rw [if_neg hng, if_neg hng1, if_neg hng2, if_pos hg, if_neg c0,
            if_neg c1, if_neg c2, if_pos c3]
        · have hng3 : g ≠ d3 := by omega
          by_cases c4 : d5 ≤ d4 ∧ d6 ≤ d4
          · have hg : g = d4 := by omega
            rw [if_neg hng, if_neg hng1, if_neg hng2, if_neg hng3,
              if_pos hg, if_neg c0, if_neg c1, if_neg c2, if_neg c3,
              if_pos c4]
          · have hng4 : g ≠ d4 := by omega
            by_cases c5 : d6 ≤ d5
            · have hg : g = d5 := by omega
              rw [if_neg hng, if_neg hng1, if_neg hng2, if_neg hng3,
                if_neg hng4, if_pos hg, if_neg c0, if_neg c1, if_neg c2,
                if_neg c3, if_neg c4, if_pos c5]
            · have hng5 : g ≠ d5 := by omega
              rw [if_neg hng, if_neg hng1, if_neg hng2, if_neg hng3,
                if_neg hng4, if_neg hng5, if_neg c0, if_neg c1, if_neg c2,
                if_neg c3, if_neg c4, if_neg c5]

/-- C6: the dominant-bucket selections are the first-listed-wins
comparison chains over their fixed enumerations — in particular the tie
{morning 5, midday 5, evening 2, night 1} returns "morning", and a
`dominant_dow` tie returns the smallest tied day value — so both are
deterministic functions of the counts. -/
theorem dominant_selection_first_listed :
    (∀ m mi e n : Int,
      dominant_day_part m mi e n = day_part_priority m mi e n) ∧
    dominant_day_part 5 5 2 1 = "morning" ∧
    (∀ d0 d1 d2 d3 d4 d5 d6 : Int,
      dominant_dow d0 d1 d2 d3 d4 d5 d6 =
        dow_priority d0 d1 d2 d3 d4 d5 d6) :=
  ⟨dominant_day_part_eq_priority, by decide, dominant_dow_eq_priority⟩

/-! ## C10 — the day-part buckets partition the hour range -/

theorem bucket_toNat_sum (h : Int) :
    (in_morning h).toNat + (in_midday h).toNat + (in_evening h).toNat +
      (in_night h).toNat = 1 := by
  by_cases h1 : 5 ≤ h ∧ h ≤ 9 <;> by_cases h2 : 10 ≤ h ∧ h ≤ 14 <;>
    by_cases h3 : 15 ≤ h ∧ h ≤ 19 <;> by_cases h4 : 20 ≤ h ∨ h < 5 <;>
    simp [in_morning, in_midday, in_evening, in_night, h1, h2, h3, h4] <;>
    omega

theorem countP_four_partition {α : Type} (p1 p2 p3 p4 : α → Bool)
    (l : List α)
    (h : ∀ a ∈ l, (p1 a).toNat + (p2 a).toNat + (p3 a).toNat +
      (p4 a).toNat = 1) :
    l.countP p1 + l.countP p2 + l.countP p3 + l.countP p4 = l.length := by
  induction l with
  | nil => simp
  | cons a t ih =>
    have ha := h a (by simp)
    have ht := ih (fun b hb => h b (by simp [hb]))
    simp only [List.countP_cons, List.length_cons]
    cases hp1 : p1 a <;> cases hp2 : p2 a <;> cases hp3 : p3 a <;>
      cases hp4 : p4 a <;> simp [hp1, hp2, hp3, hp4] at ha ⊢ <;> omega

/-- C10: every hour in 0..23 lies in exactly one of the four day-part
buckets; consequently each `user_product_time_patterns` row's four
day-part counts sum to its group's row count, and the
`instacart__order_features` day-part label is always one of the four
bucket names. -/
theorem day_part_buckets_partition :
    (∀ h : Int, 0 ≤ h → h ≤ 23 →
      (in_morning h).toNat + (in_midday h).toNat + (in_evening h).toNat +
        (in_night h).toNat = 1) ∧
    (∀ (orders : List OrderRow) (order_products : List OrderProductRow)
      (es : String),
      ∀ r ∈ user_product_time_patterns orders order_products es,
        r.morning_purchases + r.midday_purchases + r.evening_purchases +
          r.night_purchases =
        ((innerJoin (orders.filter (fun o => decide (o.eval_set = es)))
            order_products
            (fun o op => decide (o.order_id = op.order_id))).filter
          (fun x => decide ((x.1.user_id, x.2.product_id) =
            (r.user_id, r.product_id)))).length) ∧
    (∀ h : Int, day_part_of h = "morning" ∨ day_part_of h = "midday" ∨
      day_part_of h = "evening" ∨ day_part_of h = "night") := by
  refine ⟨fun h _ _ => bucket_toNat_sum h, ?_, ?_⟩
  · intro orders order_products es r hr
    unfold user_product_time_patterns at hr
    simp only [List.mem_map] at hr
    obtain ⟨kg, hkg, rfl⟩ := hr
    obtain ⟨kg1, kg2⟩ := kg
    obtain ⟨hg, -⟩ := mem_groupBy hkg
    simp only
    have hsum := countP_four_partition
      (fun x : OrderRow × OrderProductRow => in_morning x.1.order_hour_of_day)
      (fun x => in_midday x.1.order_hour_of_day)
      (fun x => in_evening x.1.order_hour_of_day)
      (fun x => in_night x.1.order_hour_of_day) kg2
      (fun a _ => bucket_toNat_sum a.1.order_hour_of_day)
    rw [hg] at hsum ⊢
    simp only [Prod.mk.eta]
    omega
  · intro h
    unfold day_part_of
    split_ifs <;> simp

/-- C10 witness: hour 7 satisfies the bucket-partition property. -/
theorem day_part_buckets_partition_witness :
    (in_morning 7).toNat + (in_midday 7).toNat + (in_evening 7).toNat +
      (in_night 7).toNat = 1 :=
  day_part_buckets_partition.1 7 (by decide) (by decide)

/-! ## C2 — the safe-divide contract -/

theorem mapME_error_iff {α β : Type} (f : α → Except Unit β)
    (l : List α) :
    mapME f l = Except.error () ↔ ∃ a ∈ l, f a = Except.error () := by
  induction l with
  | nil => simp [mapME]
  | cons a t ih =>
    rcases hfa : f a with u | b
    · obtain rfl : u = () := rfl
      constructor
      · intro _
        exact ⟨a, by simp, hfa⟩
      · intro _
        rw [mapME, hfa]
    · rcases hft : mapME f t with u | bs
      · obtain rfl : u = () := rfl
        constructor
        · intro _
          obtain ⟨x, hx, hfx⟩ := ih.mp hft
          exact ⟨x, by simp [hx], hfx⟩
        · intro _
          rw [mapME, hfa, hft]
      · constructor
        · intro hcontra
          rw [mapME, hfa, hft] at hcontra
          exact absurd hcontra (by simp)
        · rintro ⟨x, hx, hfx⟩
          rcases List.mem_cons.mp hx with rfl | hxt
          · rw [hfa] at hfx
            exact absurd hfx (by simp)
          · have hext : ∃ y ∈ t, f y = Except.error () := ⟨x, hxt, hfx⟩
            rw [← ih, hft] at hext
            exact absurd hext (by simp)

theorem forall2_ok_of_mapME {α β : Type} {f : α → Except Unit β} :
    ∀ {l : List α} {l2 : List β}, mapME f l = Except.ok l2 →
      List.Forall₂ (fun a b => f a = Except.ok b) l l2 := by
  intro l
  induction l with
  | nil =>
    intro l2 h
    rw [mapME] at h
    obtain rfl := (Except.ok.inj h)
    exact List.Forall₂.nil
  | cons a t ih =>
    intro l2 h
    rw [mapME] at h
    rcases hfa : f a with u | b <;> rw [hfa] at h
    · exact absurd h (by simp)
    · rcases hft : mapME f t with u | bs <;> rw [hft] at h
      · exact absurd h (by simp)
      · obtain rfl := (Except.ok.inj h)
        exact List.Forall₂.cons hfa (ih hft)

/-- Keys transfer along a successful `mapME` that preserves them. -/
theorem forall2_keys_eq {α β κ : Type} {f : α → Except Unit β}
    {ka : α → κ} {kb : β → κ} {l : List α} {l2 : List β}
    (h : List.Forall₂ (fun a b => f a = Except.ok b) l l2)
    (hk : ∀ a b, f a = Except.ok b → kb b = ka a) :
    l2.map kb = l.map ka := by
  induction h with
  | nil => rfl
  | cons hab _ ih => simp [hk _ _ hab, ih]

/-- Every `product_metrics` group divides by `count(distinct
order_id)`, which is positive on a non-empty group, so the unguarded
`product_reorder_rate` division never fails. -/
theorem product_metrics_never_errors (db : DB) (es : String) :
    ∃ pms, int_instacart__product_metrics db es = Except.ok pms := by
  unfold int_instacart__product_metrics
  rcases hm : mapME _ (groupBy _ _) with u | pms
  · exfalso
    obtain rfl : u = () := rfl
    obtain ⟨kg, hkg, hfkg⟩ := (mapME_error_iff _ _).mp hm
    rcases hdiv : divE
        (sumZ (kg.2.map (fun x =>
          if x.1.1.is_reordered = 1 then 1 else 0)) : ℚ)
        (countDistinct (kg.2.map (fun x => x.1.1.order_id)) : ℚ)
      with u2 | v
    · unfold divE at hdiv
      split at hdiv
      · rename_i hzero
        obtain ⟨g1, g2⟩ := kg
        have hne := groupBy_group_ne_nil hkg
        rcases g2 with _ | ⟨x0, g2t⟩
        · exact hne rfl
        · unfold countDistinct at hzero
          have hlen : ((x0 :: g2t).map
              (fun x => x.1.1.order_id)).dedup.length = 0 := by
            exact_mod_cast hzero
          have hmem0 : x0.1.1.order_id ∈ ((x0 :: g2t).map
              (fun x => x.1.1.order_id)).dedup := by
            rw [List.mem_dedup]
            exact List.mem_map_of_mem _ (by simp)
          rw [List.eq_nil_of_length_eq_zero hlen] at hmem0
          exact absurd hmem0 (List.not_mem_nil _)
      · exact absurd hdiv (by simp)
    · rw [hdiv] at hfkg
      exact absurd hfkg (by simp [Except.map])
  · exact ⟨pms, rfl⟩

/-- C2 (amended): every `nullif`-guarded ratio is `NULL` (never an
error) on a zero denominator — shown for the order `reorder_ratio`,
whose denominator `basket_size` is genuinely attainable as `0`;
`product_reorder_rate` divides unguarded but its denominator
`count(distinct order_id)` is positive on every group, so that model
never fails; `overall_reorder_rate`, however, divides unguarded by
`sum(basket_size)`, and the user-metrics model build fails exactly when
some qualifying user group's total basket size is zero. -/
theorem safe_divide_contract :
    (∀ (db : DB) (es : String),
      ∃ pms, int_instacart__product_metrics db es = Except.ok pms) ∧
    (∀ (orders : List OrderRow) (order_products : List OrderProductRow)
      (es : String),
      ∀ r ∈ order_metrics orders order_products es,
        (r.reorder_ratio = none ↔ r.basket_size = 0)) ∧
    (∀ (db : DB) (es : String) (mo : Int),
      int_instacart__user_order_metrics db es mo = Except.error () ↔
        ∃ kg ∈ groupBy (fun r => r.user_id)
          ((orders_joined db.orders db.order_products es).filter
            (fun r => decide (mo ≤ r.order_number))),
          sumZ (kg.2.map (fun r => r.basket_size)) = 0) := by
  refine ⟨product_metrics_never_errors, ?_, ?_⟩
  · intro orders order_products es r hr
    simp only [order_metrics, List.mem_map] at hr
    obtain ⟨kg, hkg, rfl⟩ := hr
    simp only [divN, nullif]
    by_cases hz :
        ((Int.ofNat (kg.2.filter (fun x => x.2.isSome)).length : Int) : ℚ) = 0
    · have hb : Int.ofNat ((kg.2.filter (fun x => x.2.isSome)).length) = 0 := by
        exact_mod_cast hz
      simp [hz, hb]
    · have hb : Int.ofNat ((kg.2.filter (fun x => x.2.isSome)).length) ≠ 0 := by
        intro h0
        exact hz (by exact_mod_cast h0)
      simp [hz, hb]
  · intro db es mo
    simp only [int_instacart__user_order_metrics]
    rw [mapME_error_iff]
    constructor
    · rintro ⟨kg, hkg, hf⟩
      refine ⟨kg, hkg, ?_⟩
      by_contra hnz
      rcases hdiv : divE (sumZ (kg.2.map (fun r => r.reordered_items)) : ℚ)
          (sumZ (kg.2.map (fun r => r.basket_size)) : ℚ) with u | v
      · unfold divE at hdiv
        split at hdiv
        · rename_i hzero
          exact hnz (by exact_mod_cast hzero)
        · exact absurd hdiv (by simp)
      · rw [hdiv] at hf
        exact absurd hf (by simp [Except.map])
    · rintro ⟨kg, hkg, hzero⟩
      refine ⟨kg, hkg, ?_⟩
      have hdiv : divE (sumZ (kg.2.map (fun r => r.reordered_items)) : ℚ)
          (sumZ (kg.2.map (fun r => r.basket_size)) : ℚ) =
          Except.error () := by
        unfold divE
        rw [if_pos (by exact_mod_cast hzero)]
      rw [hdiv]
      rfl

/-! ## C7 — ranking and rank-1-selection determinism

`row_number()` with an `order by` that need not totally order its
partition is nondeterministic: its possible outputs are captured by the
relation `IsRowNumberingOf` below, and the `department_rankings` /
`aisle_rankings` / `product_peak_hours` clauses of part_000 instantiate
it. -/

/-- The outputs `row_number() over (partition by pkey order by score
desc)` may produce over `l`: the rows of `l` each tagged with a rank
such that, within every partition, the ranks are exactly `1..n` and a
strictly greater score always receives a strictly smaller rank. -/
def IsRowNumberingOf {α κ : Type} [DecidableEq κ] (pkey : α → κ)
    (score : α → Int) (l : List α) (out : List (α × Nat)) : Prop :=
  (out.map Prod.fst).Perm l ∧
  (∀ x ∈ out,
    ((out.filter (fun y => decide (pkey y.1 = pkey x.1))).map
        Prod.snd).Perm
      (List.range' 1 (l.filter (fun z => decide (pkey z = pkey x.1))).length)) ∧
  (∀ x ∈ out, ∀ y ∈ out, pkey x.1 = pkey y.1 →
    score y.1 < score x.1 → x.2 < y.2)

instance {α κ : Type} [DecidableEq α] [DecidableEq κ] (pkey : α → κ)
    (score : α → Int) (l : List α) (out : List (α × Nat)) :
    Decidable (IsRowNumberingOf pkey score l out) := by
  unfold IsRowNumberingOf
  infer_instance

/-- The possible `department_rankings` outputs (partition by
`department_id`, order by `product_orders desc`). -/
abbrev IsDeptRankingOf (pm : List ProductMetricsRow)
    (out : List (ProductMetricsRow × Nat)) : Prop :=
  IsRowNumberingOf (fun r => r.department_id) (fun r => r.product_orders)
    pm out

/-- The possible `aisle_rankings` outputs (partition by `aisle_id`,
order by `product_orders desc`). -/
abbrev IsAisleRankingOf (pm : List ProductMetricsRow)
    (out : List (ProductMetricsRow × Nat)) : Prop :=
  IsRowNumberingOf (fun r => r.aisle_id) (fun r => r.product_orders) pm out

/-- The possible numberings behind `product_peak_hours` (partition by
`product_id`, order by `count(*) desc`; `qualify rn = 1` then keeps the
rank-1 rows). -/
abbrev IsPeakHourNumberingOf (db : DB) (es : String)
    (out : List ((Int × Int × Int) × Nat)) : Prop :=
  IsRowNumberingOf (fun x => x.1) (fun x => x.2.2)
    (product_hour_counts db es) out

theorem nodup_key_mem_eq {α κ : Type} {f : α → κ} {l : List α}
    (h : (l.map f).Nodup) {a b : α} (ha : a ∈ l) (hb : b ∈ l)
    (hf : f a = f b) : a = b := by
  induction l with
  | nil => exact absurd ha (List.not_mem_nil a)
  | cons x t ih =>
    simp only [List.map_cons, List.nodup_cons] at h
    rcases List.mem_cons.mp ha with rfl | hat
    · rcases List.mem_cons.mp hb with rfl | hbt
      · rfl
      · exact absurd (hf ▸ List.mem_map_of_mem f hbt) h.1
    · rcases List.mem_cons.mp hb with rfl | hbt
      · exact absurd (hf ▸ List.mem_map_of_mem f hat) h.1
      · exact ih h.2 hat hbt

theorem countP_lt_range' (m : ℕ) :
    ∀ n : ℕ, 1 ≤ m → m ≤ n + 1 →
      (List.range' 1 n).countP (fun r => decide (r < m)) = m - 1 := by
  intro n
  induction n with
  | zero =>
    intro h1 h2
    have hm : m = 1 := by omega
    subst hm
    simp
  | succ k ih =>
    intro h1 h2
    rw [List.range'_concat, List.countP_append]
    by_cases hm : m ≤ k + 1
    · rw [ih h1 hm]
      have hc2 : decide (1 + 1 * k < m) = false := by
        simp only [decide_eq_false_iff_not]
        omega
      rw [List.countP_cons, List.countP_nil, hc2]
      show m - 1 + (0 + 0) = m - 1
      omega
    · have hc : 1 + 1 * k < m := by omega
      have hall : ∀ r ∈ List.range' 1 k,
          (fun r => decide (r < m)) r = true := by
        intro r hr
        have := List.mem_range'_1.mp hr
        simp only [decide_eq_true_eq]
        omega
      have hk : (List.range' 1 k).countP (fun r => decide (r < m)) = k := by
        rw [List.countP_eq_length_filter, List.filter_eq_self.mpr hall,
          List.length_range']
      rw [hk]
      have hc2 : decide (1 + 1 * k < m) = true := by
        simp only [decide_eq_true_eq]
        omega
      rw [List.countP_cons, List.countP_nil, hc2]
      show k + (0 + 1) = m - 1
      omega

/-- In any valid numbering over duplicate-free rows whose partitions
are tie-free, a row's rank is one plus the number of partition rows
with a strictly greater score. -/
theorem row_numbering_rank_eq {α κ : Type} [DecidableEq α]
    [DecidableEq κ] (pkey : α → κ) (score : α → Int) (l : List α)
    (hnd : l.Nodup)
    (hinj : ∀ x ∈ l, ∀ y ∈ l, pkey x = pkey y → score x = score y → x = y)
    {out : List (α × Nat)} (h : IsRowNumberingOf pkey score l out) :
    ∀ x ∈ out, x.2 = 1 +
      ((l.filter (fun z => decide (pkey z = pkey x.1))).filter
        (fun z => decide (score x.1 < score z))).length := by
  obtain ⟨hperm, hranks, hmono⟩ := h
  intro x hx
  have houtnd : (out.map Prod.fst).Nodup := hperm.nodup_iff.mpr hnd
  set P := out.filter (fun y => decide (pkey y.1 = pkey x.1)) with hP
  set n := (l.filter (fun z => decide (pkey z = pkey x.1))).length with hn
  have hrankP : (P.map Prod.snd).Perm (List.range' 1 n) := hranks x hx
  have hxP : x ∈ P := by
    rw [hP]
    exact List.mem_filter.mpr ⟨hx, by simp⟩
  -- the partition's underlying rows are a permutation of the
  -- corresponding filter of `l`
  have hPfst : (P.map Prod.fst).Perm
      (l.filter (fun z => decide (pkey z = pkey x.1))) := by
    have hmf : P.map Prod.fst = (out.map Prod.fst).filter
        (fun z => decide (pkey z = pkey x.1)) := by
      rw [hP, List.filter_map]
      rfl
    rw [hmf]
    exact hperm.filter _
  -- membership of the rank in 1..n
  have hxrank : x.2 ∈ List.range' 1 n :=
    hrankP.mem_iff.mp (List.mem_map_of_mem Prod.snd hxP)
  have hxrank2 := List.mem_range'_1.mp hxrank
  -- count ranks below x.2 two ways
  have hcount1 : (P.map Prod.snd).countP (fun r => decide (r < x.2)) =
      x.2 - 1 := by
    rw [hrankP.countP_eq]
    exact countP_lt_range' x.2 n (by omega) (by omega)
  have hiff : ∀ y ∈ P, (y.2 < x.2 ↔ score x.1 < score y.1) := by
    intro y hyP
    have hyout := (List.mem_filter.mp (hP ▸ hyP)).1
    have hykey : pkey y.1 = pkey x.1 := by
      have := (List.mem_filter.mp (hP ▸ hyP)).2
      simpa using this
    constructor
    · intro hlt
      rcases lt_trichotomy (score y.1) (score x.1) with hs | hs | hs
      · have := hmono x hx y hyout hykey.symm hs
        omega
      · have hy1 : y.1 ∈ l := hperm.mem_iff.mp
          (List.mem_map_of_mem Prod.fst hyout)
        have hx1 : x.1 ∈ l := hperm.mem_iff.mp
          (List.mem_map_of_mem Prod.fst hx)
        have := hinj y.1 hy1 x.1 hx1 hykey hs
        have hxy : y = x := nodup_key_mem_eq houtnd hyout hx this
        rw [hxy] at hlt
        exact absurd hlt (lt_irrefl x.2)
      · exact hs
    · intro hs
      exact hmono y hyout x hx hykey hs
  have hcount2 : (P.map Prod.snd).countP (fun r => decide (r < x.2)) =
      ((l.filter (fun z => decide (pkey z = pkey x.1))).filter
        (fun z => decide (score x.1 < score z))).length := by
    rw [List.countP_map]
    have hc : P.countP ((fun r => decide (r < x.2)) ∘ Prod.snd) =
        P.countP (fun y => decide (score x.1 < score y.1)) := by
      apply List.countP_congr
      intro y hy
      simp only [Function.comp, decide_eq_true_eq]
      constructor
      · intro hh
        exact (hiff y hy).mp (by simpa using hh)
      · intro hh
        simpa using (hiff y hy).mpr (by simpa using hh)
    rw [hc]
    have : P.countP (fun y => decide (score x.1 < score y.1)) =
        (P.map Prod.fst).countP (fun z => decide (score x.1 < score z)) := by
      rw [List.countP_map]
      rfl
    rw [this, hPfst.countP_eq, List.countP_eq_length_filter]
  omega

/-- Two valid numberings agree on every common row when the rows are
duplicate-free and no partition has a score tie. -/
theorem row_numbering_deterministic {α κ : Type} [DecidableEq α]
    [DecidableEq κ] (pkey : α → κ) (score : α → Int) (l : List α)
    (hnd : l.Nodup)
    (hinj : ∀ x ∈ l, ∀ y ∈ l, pkey x = pkey y → score x = score y → x = y)
    {out1 out2 : List (α × Nat)} (h1 : IsRowNumberingOf pkey score l out1)
    (h2 : IsRowNumberingOf pkey score l out2) :
    ∀ x ∈ out1, ∀ y ∈ out2, x.1 = y.1 → x.2 = y.2 := by
  intro x hx y hy hfst
  rw [row_numbering_rank_eq pkey score l hnd hinj h1 x hx,
    row_numbering_rank_eq pkey score l hnd hinj h2 y hy, hfst]

/-- C7 (amended): the popularity rankings and the rank-1 recency
numbering are deterministic on inputs where no two rows of a partition
tie on the ranking key: any two valid `row_number` materializations
assign equal ranks to equal rows — for department rankings, aisle
rankings and the peak-hour numbering (whose `qualify rn = 1` selection
therefore also agrees).  On tied inputs several valid outputs exist
(`rankings_not_deterministic_on_ties`). -/
theorem popularity_rankings_deterministic :
    (∀ pm : List ProductMetricsRow, pm.Nodup →
      (∀ x ∈ pm, ∀ y ∈ pm, x.department_id = y.department_id →
        x.product_orders = y.product_orders → x = y) →
      ∀ out1 out2, IsDeptRankingOf pm out1 → IsDeptRankingOf pm out2 →
      ∀ x ∈ out1, ∀ y ∈ out2, x.1 = y.1 → x.2 = y.2) ∧
    (∀ pm : List ProductMetricsRow, pm.Nodup →
      (∀ x ∈ pm, ∀ y ∈ pm, x.aisle_id = y.aisle_id →
        x.product_orders = y.product_orders → x = y) →
      ∀ out1 out2, IsAisleRankingOf pm out1 → IsAisleRankingOf pm out2 →
      ∀ x ∈ out1, ∀ y ∈ out2, x.1 = y.1 → x.2 = y.2) ∧
    (∀ (db : DB) (es : String), (product_hour_counts db es).Nodup →
      (∀ x ∈ product_hour_counts db es, ∀ y ∈ product_hour_counts db es,
        x.1 = y.1 → x.2.2 = y.2.2 → x = y) →
      ∀ out1 out2, IsPeakHourNumberingOf db es out1 →
        IsPeakHourNumberingOf db es out2 →
      ∀ x ∈ out1, ∀ y ∈ out2, x.1 = y.1 →
        (x.2 = y.2 ∧ (x.2 = 1 ↔ y.2 = 1))) := by
  refine ⟨?_, ?_, ?_⟩
  · intro pm hnd hinj out1 out2 h1 h2
    exact row_numbering_deterministic _ _ pm hnd hinj h1 h2
  · intro pm hnd hinj out1 out2 h1 h2
    exact row_numbering_deterministic _ _ pm hnd hinj h1 h2
  · intro db es hnd hinj out1 out2 h1 h2 x hx y hy hfst
    have heq := row_numbering_deterministic _ _ _ hnd hinj h1 h2 x hx y hy
      hfst
    exact ⟨heq, by rw [heq]⟩

/-- Two products of the same department tied on `product_orders`. -/
def pm_tied_a : ProductMetricsRow :=
  { product_id := 1, aisle_id := 1, department_id := 1,
    product_orders := 10, product_reorders := 5,
    product_reorder_rate := 0, product_avg_cart_position := none }

def pm_tied_b : ProductMetricsRow :=
  { product_id := 2, aisle_id := 2, department_id := 1,
    product_orders := 10, product_reorders := 2,
    product_reorder_rate := 0, product_avg_cart_position := none }

/-- Same department, distinct `product_orders` (no tie). -/
def pm_rank_b : ProductMetricsRow :=
  { product_id := 2, aisle_id := 2, department_id := 1,
    product_orders := 7, product_reorders := 2,
    product_reorder_rate := 0, product_avg_cart_position := none }

/-- C7 counterexample: with two products tied on `product_orders`
inside one department, two different rank assignments are both valid
`row_number` outputs — the ranking's `order by` carries no secondary
tiebreak key, so tied ranks are not reproducible. -/
theorem rankings_not_deterministic_on_ties :
    IsDeptRankingOf [pm_tied_a, pm_tied_b]
      [(pm_tied_a, 1), (pm_tied_b, 2)] ∧
    IsDeptRankingOf [pm_tied_a, pm_tied_b]
      [(pm_tied_b, 1), (pm_tied_a, 2)] ∧
    ¬ (∀ x ∈ [(pm_tied_a, 1), (pm_tied_b, 2)],
        ∀ y ∈ [(pm_tied_b, 1), (pm_tied_a, 2)], x.1 = y.1 → x.2 = y.2) := by
  refine ⟨by decide, by decide, ?_⟩
  intro hdet
  exact absurd (hdet (pm_tied_a, 1) (by decide) (pm_tied_a, 2) (by decide)
    rfl) (by decide)

/-- C7 witness: the determinism statement instantiated on a tie-free
department. -/
theorem popularity_rankings_deterministic_witness :
    [pm_tied_a, pm_rank_b].Nodup ∧
    ((pm_tied_a, 1) : ProductMetricsRow × ℕ).2 =
      ((pm_tied_a, 1) : ProductMetricsRow × ℕ).2 :=
  ⟨by decide,
    popularity_rankings_deterministic.1 [pm_tied_a, pm_rank_b] (by decide)
      (by decide) [(pm_tied_a, 1), (pm_rank_b, 2)]
      [(pm_tied_a, 1), (pm_rank_b, 2)] (by decide) (by decide)
      (pm_tied_a, 1) (by decide) (pm_tied_a, 1) (by decide) rfl⟩

/-! ## C3 — key uniqueness of the four feature tables -/

/-- The §3 input invariants: unique `order_id`, `product_id`,
`aisle_id`, `department_id`, and order lines keyed by
`(order_id, product_id)`. -/
def DBWellKeyed (db : DB) : Prop :=
  (db.orders.map (fun o => o.order_id)).Nodup ∧
  (db.products.map (fun p => p.product_id)).Nodup ∧
  (db.aisles.map (fun a => a.aisle_id)).Nodup ∧
  (db.departments.map (fun d => d.department_id)).Nodup ∧
  (db.order_products.map (fun l => (l.order_id, l.product_id))).Nodup

instance (db : DB) : Decidable (DBWellKeyed db) := by
  unfold DBWellKeyed
  infer_instance

theorem filterMap_keys_sublist {α β κ : Type} (f : α → Option β)
    (ka : α → κ) (kb : β → κ)
    (hpres : ∀ a b, f a = some b → kb b = ka a) :
    ∀ l : List α, ((l.filterMap f).map kb).Sublist (l.map ka) := by
  intro l
  induction l with
  | nil => simp
  | cons a t ih =>
    rw [List.filterMap_cons]
    rcases hfa : f a with _ | b
    · exact ih.trans (List.sublist_cons_self _ _)
    · simp only [List.map_cons]
      rw [hpres a b hfa]
      exact List.Sublist.cons₂ _ ih

/-- The user-features result keys each row by a distinct `user_id`
(no input invariant needed: every constituent is keyed by a group-by
or a rank-1 pick per user). -/
theorem user_features_keys_nodup (db : DB) (es : String) (mo : Int) :
    ∀ rows, instacart__user_features db es mo = Except.ok rows →
      (rows.map (fun r => r.user_id)).Nodup := by
  intro rows hok
  simp only [instacart__user_features, bind, Except.bind] at hok
  rcases hum : int_instacart__user_order_metrics db es mo with u | um <;>
    rw [hum] at hok
  · exact absurd hok (by simp)
  · simp only [pure, Except.pure] at hok
    obtain rfl := (Except.ok.inj hok)
    -- keys of the user metrics
    have hum2 : um.map (fun r => r.user_id) =
        (groupBy (fun r : OrdersJoinedRow => r.user_id)
          ((orders_joined db.orders db.order_products es).filter
            (fun r => decide (mo ≤ r.order_number)))).map Prod.fst := by
      simp only [int_instacart__user_order_metrics] at hum
      refine forall2_keys_eq (forall2_ok_of_mapME hum) ?_
      intro kg r hr
      rcases hdiv : divE (sumZ (kg.2.map (fun r => r.reordered_items)) : ℚ)
          (sumZ (kg.2.map (fun r => r.basket_size)) : ℚ) with u2 | v <;>
        rw [hdiv] at hr
      · exact absurd hr (by simp [Except.map])
      · simp only [Except.map] at hr
        obtain rfl := (Except.ok.inj hr)
        rfl
    have humnd : (um.map (fun r => r.user_id)).Nodup := by
      rw [hum2]
      exact groupBy_keys_nodup _ _
    -- right-hand sides are keyed uniquely
    have hdp : ((distinct_products db.orders db.order_products es).map
        Prod.fst).Nodup := by
      unfold distinct_products
      rw [List.map_map]
      exact groupBy_keys_nodup _ _
    have hrs : ((reorder_stats db.orders db.order_products es).map
        (fun r => r.user_id)).Nodup := by
      unfold reorder_stats
      rw [List.map_map]
      exact groupBy_keys_nodup _ _
    have hlo : ((last_order_per_user db.orders es).map Prod.fst).Nodup := by
      unfold last_order_per_user
      have hsub := filterMap_keys_sublist
        (fun kg : Int × List OrderRow =>
          (argmaxBy (fun o => o.order_number) kg.2).map (fun o => (kg.1, o)))
        Prod.fst Prod.fst ?_
        (groupBy (fun o => o.user_id)
          (db.orders.filter (fun o => decide (o.eval_set = es))))
      · exact (groupBy_keys_nodup _ _).sublist hsub
      · intro kg b hb
        have hb2 : (argmaxBy (fun o => o.order_number) kg.2).map
            (fun o => (kg.1, o)) = some b := hb
        rcases hm : argmaxBy (fun o => o.order_number) kg.2 with _ | o <;>
          rw [hm] at hb2
        · exact absurd hb2 (by simp)
        · obtain rfl := (Option.some.inj hb2)
          rfl
    -- the join chain
    have hj1 : ((innerJoin um (distinct_products db.orders db.order_products
        es) (fun a b => decide (a.user_id = b.1))).map
        (fun x => x.1.user_id)).Nodup := by
      refine innerJoin_keys_nodup humnd ?_
      intro a ha
      refine length_filter_le_one_of_nodup hdp _ a.user_id ?_
      intro b hb
      simp only [decide_eq_true_eq] at hb
      exact hb.symm
    have hj2 : ((innerJoin (innerJoin um
        (distinct_products db.orders db.order_products es)
        (fun a b => decide (a.user_id = b.1)))
        (reorder_stats db.orders db.order_products es)
        (fun a b => decide (a.1.user_id = b.user_id))).map
        (fun x => x.1.1.user_id)).Nodup := by
      refine innerJoin_keys_nodup hj1 ?_
      intro a ha
      refine length_filter_le_one_of_nodup hrs _ a.1.user_id ?_
      intro b hb
      simp only [decide_eq_true_eq] at hb
      exact hb.symm
    have hj3 : ((innerJoin (innerJoin (innerJoin um
        (distinct_products db.orders db.order_products es)
        (fun a b => decide (a.user_id = b.1)))
        (reorder_stats db.orders db.order_products es)
        (fun a b => decide (a.1.user_id = b.user_id)))
        (last_order_per_user db.orders es)
        (fun a b => decide (a.1.1.user_id = b.1))).map
        (fun x => x.1.1.1.user_id)).Nodup := by
      refine innerJoin_keys_nodup hj2 ?_
      intro a ha
      refine length_filter_le_one_of_nodup hlo _ a.1.1.user_id ?_
      intro b hb
      simp only [decide_eq_true_eq] at hb
      exact hb.symm
    rw [List.map_map]
    exact hj3

theorem groupBy_keys_mem {α κ : Type} [DecidableEq κ] {key : α → κ}
    {l : List α} {k : κ} (h : k ∈ (groupBy key l).map Prod.fst) :
    ∃ a ∈ l, key a = k := by
  simp only [groupBy, List.map_map] at h
  have hid : (Prod.fst ∘ fun k0 : κ =>
      (k0, l.filter (fun a => decide (key a = k0)))) = id := rfl
  rw [hid, List.map_id, List.mem_dedup] at h
  exact List.mem_map.mp h

/-- Under unique raw `order_id`s, the order-features table is keyed by
distinct `order_id`s. -/
theorem order_features_keys_nodup (db : DB) (es : String)
    (horders : (db.orders.map (fun o => o.order_id)).Nodup) :
    ((instacart__order_features db es).map (fun r => r.order_id)).Nodup := by
  have hfil : ((db.orders.filter (fun o => decide (o.eval_set = es))).map
      (fun o => o.order_id)).Nodup :=
    horders.sublist (List.Sublist.map _ (List.filter_sublist _))
  -- order_metrics is keyed by distinct order ids
  have hom : ((order_metrics db.orders db.order_products es).map
      (fun r => r.order_id)).Nodup := by
    unfold order_metrics
    rw [List.map_map]
    have hkeys : ((groupBy (fun x : OrderRow × Option OrderProductRow =>
        orderGroupKey x.1)
        (leftJoin (db.orders.filter (fun o => decide (o.eval_set = es)))
          db.order_products
          (fun o op => decide (o.order_id = op.order_id)))).map
        Prod.fst).Nodup := groupBy_keys_nodup _ _
    have hmapped : ∀ k1 ∈ (groupBy (fun x : OrderRow × Option OrderProductRow =>
        orderGroupKey x.1)
        (leftJoin (db.orders.filter (fun o => decide (o.eval_set = es)))
          db.order_products
          (fun o op => decide (o.order_id = op.order_id)))).map Prod.fst,
        ∀ k2 ∈ (groupBy (fun x : OrderRow × Option OrderProductRow =>
        orderGroupKey x.1)
        (leftJoin (db.orders.filter (fun o => decide (o.eval_set = es)))
          db.order_products
          (fun o op => decide (o.order_id = op.order_id)))).map Prod.fst,
        k1.order_id = k2.order_id → k1 = k2 := by
      intro k1 h1 k2 h2 hid
      obtain ⟨x1, hx1, hk1⟩ := groupBy_keys_mem h1
      obtain ⟨x2, hx2, hk2⟩ := groupBy_keys_mem h2
      have ho1 := (mem_leftJoin hx1).1
      have ho2 := (mem_leftJoin hx2).1
      have : x1.1 = x2.1 := by
        refine nodup_key_mem_eq hfil ho1 ho2 ?_
        have e1 : x1.1.order_id = k1.order_id := by rw [← hk1]; rfl
        have e2 : x2.1.order_id = k2.order_id := by rw [← hk2]; rfl
        rw [e1, e2, hid]
      rw [← hk1, ← hk2, this]
    have := List.Nodup.map_on hmapped hkeys
    rw [List.map_map] at this
    exact this
  -- prev_order_metrics is keyed by distinct order ids
  have hpom : ((prev_order_metrics db.orders db.order_products es).map
      (fun r => r.order_id)).Nodup := by
    simp only [prev_order_metrics]
    rw [List.map_map]
    have hj : ((innerJoin
        (db.orders.filter (fun o => decide (o.eval_set = es)))
        (order_metrics db.orders db.order_products es)
        (fun o m => decide (o.order_id = m.order_id))).map
        (fun x => x.1.order_id)).Nodup := by
      refine innerJoin_keys_nodup hfil ?_
      intro a ha
      refine length_filter_le_one_of_nodup hom _ a.order_id ?_
      intro b hb
      simp only [decide_eq_true_eq] at hb
      exact hb.symm
    exact hj
  -- product_diversity is keyed by distinct order ids
  have hpd : ((product_diversity db es).map Prod.fst).Nodup := by
    unfold product_diversity
    rw [List.map_map]
    exact groupBy_keys_nodup _ _
  -- the final left-join chain
  unfold instacart__order_features
  rw [List.map_map]
  have hj1 : ((leftJoin (order_metrics db.orders db.order_products es)
      (prev_order_metrics db.orders db.order_products es)
      (fun a b => decide (a.order_id = b.order_id))).map
      (fun x => x.1.order_id)).Nodup := by
    refine leftJoin_keys_nodup hom ?_
    intro a ha
    refine length_filter_le_one_of_nodup hpom _ a.order_id ?_
    intro b hb
    simp only [decide_eq_true_eq] at hb
    exact hb.symm
  have hj2 : ((leftJoin (leftJoin
      (order_metrics db.orders db.order_products es)
      (prev_order_metrics db.orders db.order_products es)
      (fun a b => decide (a.order_id = b.order_id)))
      (product_diversity db es)
      (fun a b => decide (a.1.order_id = b.1))).map
      (fun x => x.1.1.order_id)).Nodup := by
    refine leftJoin_keys_nodup hj1 ?_
    intro a ha
    refine length_filter_le_one_of_nodup hpd _ a.1.order_id ?_
    intro b hb
    simp only [decide_eq_true_eq] at hb
    exact hb.symm
  exact hj2

theorem row_number_over_fst {α κ : Type} [DecidableEq κ] (pkey : α → κ)
    (score : α → Int) (l : List α) :
    (row_number_over pkey score l).map Prod.fst = l := by
  unfold row_number_over
  rw [List.map_map]
  have hcomp : (Prod.fst ∘ fun p : ℕ × α =>
      (p.2, 1 + (l.enum.filter (fun q => decide (pkey q.2 = pkey p.2) &&
        (decide (score p.2 < score q.2) ||
          (decide (score q.2 = score p.2) && decide (q.1 < p.1))))).length)) =
      Prod.snd := rfl
  rw [hcomp]
  exact List.enum_map_snd l

/-- Under unique raw `product_id`s (and unique aisle/department ids),
the product-features table is keyed by distinct `product_id`s. -/
theorem product_features_keys_nodup (db : DB) (es : String)
    (hprod : (db.products.map (fun p => p.product_id)).Nodup)
    (haisle : (db.aisles.map (fun a => a.aisle_id)).Nodup)
    (hdept : (db.departments.map (fun d => d.department_id)).Nodup) :
    ∀ rows, instacart__product_features db es = Except.ok rows →
      (rows.map (fun r => r.product_id)).Nodup := by
  intro rows hok
  simp only [instacart__product_features, bind, Except.bind] at hok
  rcases hpm : int_instacart__product_metrics db es with u | pms <;>
    rw [hpm] at hok
  · exact absurd hok (by simp)
  · simp only [pure, Except.pure] at hok
    obtain rfl := (Except.ok.inj hok)
    simp only [int_instacart__product_metrics] at hpm
    -- the metric rows carry the group keys
    have htrip : pms.map (fun r =>
        (r.product_id, r.aisle_id, r.department_id)) =
        (groupBy (fun x => (x.1.1.product_id, x.2.aisle_id,
          x.2.department_id))
          (innerJoin (innerJoin db.order_products
            (db.orders.filter (fun o => decide (o.eval_set = es)))
            (fun op o => decide (op.order_id = o.order_id)))
          db.products
          (fun x p => decide (x.1.product_id = p.product_id)))).map
          Prod.fst := by
      refine forall2_keys_eq (forall2_ok_of_mapME hpm) ?_
      intro kg r hr
      rcases hdiv : divE
          (sumZ (kg.2.map (fun x =>
            if x.1.1.is_reordered = 1 then 1 else 0)) : ℚ)
          (countDistinct (kg.2.map (fun x => x.1.1.order_id)) : ℚ)
        with u2 | v <;> rw [hdiv] at hr
      · exact absurd hr (by simp [Except.map])
      · simp only [Except.map] at hr
        obtain rfl := (Except.ok.inj hr)
        rfl
    have hpmnd : (pms.map (fun r => r.product_id)).Nodup := by
      have hset : pms.map (fun r => r.product_id) =
          (pms.map (fun r =>
            (r.product_id, r.aisle_id, r.department_id))).map
            (fun k => k.1) := by
        rw [List.map_map]
        rfl
      rw [hset, htrip]
      refine List.Nodup.map_on ?_ (groupBy_keys_nodup _ _)
      intro k1 hk1m k2 hk2m hfsteq
      obtain ⟨x1, hx1, hk1⟩ := groupBy_keys_mem hk1m
      obtain ⟨x2, hx2, hk2⟩ := groupBy_keys_mem hk2m
      have hm1 := mem_innerJoin hx1
      have hm2 := mem_innerJoin hx2
      have hc1 : x1.1.1.product_id = x1.2.product_id := by
        have := hm1.2.2
        simpa using this
      have hc2 : x2.1.1.product_id = x2.2.product_id := by
        have := hm2.2.2
        simpa using this
      have he1 : k1.1 = x1.1.1.product_id := by rw [← hk1]
      have he2 : k2.1 = x2.1.1.product_id := by rw [← hk2]
      have hpe : x1.2 = x2.2 := by
        refine nodup_key_mem_eq hprod hm1.2.1 hm2.2.1 ?_
        rw [← hc1, ← hc2, ← he1, ← he2, hfsteq]
      refine Prod.ext hfsteq ?_
      have hs1 : k1.2 = (x1.2.aisle_id, x1.2.department_id) := by
        rw [← hk1]
      have hs2 : k2.2 = (x2.2.aisle_id, x2.2.department_id) := by
        rw [← hk2]
      rw [hs1, hs2, hpe]
    -- both rankings keep one row per metric row
    have hdr : ((department_rankings pms).map
        (fun b => b.1.product_id)).Nodup := by
      unfold department_rankings
      have hmm : (row_number_over (fun r => r.department_id)
          (fun r => r.product_orders) pms).map (fun b => b.1.product_id) =
          ((row_number_over (fun r => r.department_id)
            (fun r => r.product_orders) pms).map Prod.fst).map
            (fun r => r.product_id) := by
        rw [List.map_map]
        rfl
      rw [hmm, row_number_over_fst]
      exact hpmnd
    have har : ((aisle_rankings pms).map
        (fun b => b.1.product_id)).Nodup := by
      unfold aisle_rankings
      have hmm : (row_number_over (fun r => r.aisle_id)
          (fun r => r.product_orders) pms).map (fun b => b.1.product_id) =
          ((row_number_over (fun r => r.aisle_id)
            (fun r => r.product_orders) pms).map Prod.fst).map
            (fun r => r.product_id) := by
        rw [List.map_map]
        rfl
      rw [hmm, row_number_over_fst]
      exact hpmnd
    have hpph : ((product_peak_hours db es).map Prod.fst).Nodup := by
      unfold product_peak_hours
      have hsub := filterMap_keys_sublist
        (fun kg : Int × List (Int × Int × Int) =>
          (argmaxBy (fun x => x.2.2) kg.2).map (fun x => (kg.1, x.2.1, x.2.2)))
        Prod.fst Prod.fst ?_ (groupBy (fun x : Int × Int × Int => x.1)
          (product_hour_counts db es))
      · exact (groupBy_keys_nodup _ _).sublist hsub
      · intro kg b hb
        have hb2 : (argmaxBy (fun x : Int × Int × Int => x.2.2) kg.2).map
            (fun x => (kg.1, x.2.1, x.2.2)) = some b := hb
        rcases hm : argmaxBy (fun x : Int × Int × Int => x.2.2) kg.2
          with _ | o <;> rw [hm] at hb2
        · exact absurd hb2 (by simp)
        · obtain rfl := (Option.some.inj hb2)
          rfl
    have hppd : ((product_peak_days db es).map Prod.fst).Nodup := by
      unfold product_peak_days
      have hsub := filterMap_keys_sublist
        (fun kg : Int × List (Int × Int × Int) =>
          (argmaxBy (fun x => x.2.2) kg.2).map (fun x => (kg.1, x.2.1, x.2.2)))
        Prod.fst Prod.fst ?_ (groupBy (fun x : Int × Int × Int => x.1)
          (product_day_counts db es))
      · exact (groupBy_keys_nodup _ _).sublist hsub
      · intro kg b hb
        have hb2 : (argmaxBy (fun x : Int × Int × Int => x.2.2) kg.2).map
            (fun x => (kg.1, x.2.1, x.2.2)) = some b := hb
        rcases hm : argmaxBy (fun x : Int × Int × Int => x.2.2) kg.2
          with _ | o <;> rw [hm] at hb2
        · exact absurd hb2 (by simp)
        · obtain rfl := (Option.some.inj hb2)
          rfl
    have hds : ((department_stats pms).map Prod.fst).Nodup := by
      unfold department_stats
      rw [List.map_map]
      exact groupBy_keys_nodup _ _
    -- the join chain, keyed throughout by the products row
    have hj1 : ((innerJoin db.products pms
        (fun p b => decide (p.product_id = b.product_id))).map
        (fun x => x.1.product_id)).Nodup := by
      refine innerJoin_keys_nodup hprod ?_
      intro a ha
      refine length_filter_le_one_of_nodup hpmnd _ a.product_id ?_
      intro b hb
      simp only [decide_eq_true_eq] at hb
      exact hb.symm
    have hj2 : ((innerJoin (innerJoin db.products pms
        (fun p b => decide (p.product_id = b.product_id))) db.aisles
        (fun x a => decide (x.1.aisle_id = a.aisle_id))).map
        (fun x => x.1.1.product_id)).Nodup := by
      refine innerJoin_keys_nodup hj1 ?_
      intro a ha
      refine length_filter_le_one_of_nodup haisle _ a.1.aisle_id ?_
      intro b hb
      simp only [decide_eq_true_eq] at hb
      exact hb.symm
    have hj3 : ((innerJoin (innerJoin (innerJoin db.products pms
        (fun p b => decide (p.product_id = b.product_id))) db.aisles
        (fun x a => decide (x.1.aisle_id = a.aisle_id))) db.departments
        (fun x d => decide (x.1.1.department_id = d.department_id))).map
        (fun x => x.1.1.1.product_id)).Nodup := by
      refine innerJoin_keys_nodup hj2 ?_
      intro a ha
      refine length_filter_le_one_of_nodup hdept _ a.1.1.department_id ?_
      intro b hb
      simp only [decide_eq_true_eq] at hb
      exact hb.symm
    have hj4 : ((innerJoin (innerJoin (innerJoin (innerJoin db.products pms
        (fun p b => decide (p.product_id = b.product_id))) db.aisles
        (fun x a => decide (x.1.aisle_id = a.aisle_id))) db.departments
        (fun x d => decide (x.1.1.department_id = d.department_id)))
        (department_rankings pms)
        (fun x b => decide (x.1.1.1.product_id = b.1.product_id))).map
        (fun x => x.1.1.1.1.product_id)).Nodup := by
      refine innerJoin_keys_nodup hj3 ?_
      intro a ha
      refine length_filter_le_one_of_nodup hdr _ a.1.1.1.product_id ?_
      intro b hb
      simp only [decide_eq_true_eq] at hb
      exact hb.symm
    have hj5 : ((innerJoin (innerJoin (innerJoin (innerJoin (innerJoin
        db.products pms
        (fun p b => decide (p.product_id = b.product_id))) db.aisles
        (fun x a => decide (x.1.aisle_id = a.aisle_id))) db.departments
        (fun x d => decide (x.1.1.department_id = d.department_id)))
        (department_rankings pms)
        (fun x b => decide (x.1.1.1.product_id = b.1.product_id)))
        (aisle_rankings pms)
        (fun x b => decide (x.1.1.1.1.product_id = b.1.product_id))).map
        (fun x => x.1.1.1.1.1.product_id)).Nodup := by
      refine innerJoin_keys_nodup hj4 ?_
      intro a ha
      refine length_filter_le_one_of_nodup har _ a.1.1.1.1.product_id ?_
      intro b hb
      simp only [decide_eq_true_eq] at hb
      exact hb.symm
    have hj6 : ((innerJoin (innerJoin (innerJoin (innerJoin (innerJoin
        (innerJoin db.products pms
        (fun p b => decide (p.product_id = b.product_id))) db.aisles
        (fun x a => decide (x.1.aisle_id = a.aisle_id))) db.departments
        (fun x d => decide (x.1.1.department_id = d.department_id)))
        (department_rankings pms)
        (fun x b => decide (x.1.1.1.product_id = b.1.product_id)))
        (aisle_rankings pms)
        (fun x b => decide (x.1.1.1.1.product_id = b.1.product_id)))
        (department_stats pms)
        (fun x b => decide (x.1.1.1.1.1.department_id = b.1))).map
        (fun x => x.1.1.1.1.1.1.product_id)).Nodup := by
      refine innerJoin_keys_nodup hj5 ?_
      intro a ha
      refine length_filter_le_one_of_nodup hds _ a.1.1.1.1.1.department_id ?_
      intro b hb
      simp only [decide_eq_true_eq] at hb
      exact hb.symm
    have hj7 : ((leftJoin (innerJoin (innerJoin (innerJoin (innerJoin
        (innerJoin (innerJoin db.products pms
        (fun p b => decide (p.product_id = b.product_id))) db.aisles
        (fun x a => decide (x.1.aisle_id = a.aisle_id))) db.departments
        (fun x d => decide (x.1.1.department_id = d.department_id)))
        (department_rankings pms)
        (fun x b => decide (x.1.1.1.product_id = b.1.product_id)))
        (aisle_rankings pms)
        (fun x b => decide (x.1.1.1.1.product_id = b.1.product_id)))
        (department_stats pms)
        (fun x b => decide (x.1.1.1.1.1.department_id = b.1)))
        (product_peak_hours db es)
        (fun x b => decide (x.1.1.1.1.1.1.product_id = b.1))).map
        (fun x => x.1.1.1.1.1.1.1.product_id)).Nodup := by
      refine leftJoin_keys_nodup hj6 ?_
      intro a ha
      refine length_filter_le_one_of_nodup hpph _
        a.1.1.1.1.1.1.product_id ?_
      intro b hb
      simp only [decide_eq_true_eq] at hb
      exact hb.symm
    have hj8 : ((leftJoin (leftJoin (innerJoin (innerJoin (innerJoin
        (innerJoin (innerJoin (innerJoin db.products pms
        (fun p b => decide (p.product_id = b.product_id))) db.aisles
        (fun x a => decide (x.1.aisle_id = a.aisle_id))) db.departments
        (fun x d => decide (x.1.1.department_id = d.department_id)))
        (department_rankings pms)
        (fun x b => decide (x.1.1.1.product_id = b.1.product_id)))
        (aisle_rankings pms)
        (fun x b => decide (x.1.1.1.1.product_id = b.1.product_id)))
        (department_stats pms)
        (fun x b => decide (x.1.1.1.1.1.department_id = b.1)))
        (product_peak_hours db es)
        (fun x b => decide (x.1.1.1.1.1.1.product_id = b.1)))
        (product_peak_days db es)
        (fun x b => decide (x.1.1.1.1.1.1.1.product_id = b.1))).map
        (fun x => x.1.1.1.1.1.1.1.1.product_id)).Nodup := by
      refine leftJoin_keys_nodup hj7 ?_
      intro a ha
      refine length_filter_le_one_of_nodup hppd _
        a.1.1.1.1.1.1.1.product_id ?_
      intro b hb
      simp only [decide_eq_true_eq] at hb
      exact hb.symm
    rw [List.map_map]
    exact hj8

/-! ### Injectivity of the `user_product_id` encoding -/

/-- Value of a digit list read in base 10. -/
def decimalVal (ds : List Nat) : Nat := ds.foldl (fun a d => 10 * a + d) 0

theorem natDecimalAux_spec : ∀ fuel n, n < fuel →
    natDecimalAux fuel n ≠ [] ∧ decimalVal (natDecimalAux fuel n) = n ∧
      ∀ d ∈ natDecimalAux fuel n, d < 10 := by
  intro fuel
  induction fuel with
  | zero => intro n h; omega
  | succ f ih =>
    intro n h
    by_cases h10 : n < 10
    · simp only [natDecimalAux, if_pos h10]
      refine ⟨by simp, by simp [decimalVal], ?_⟩
      intro d hd
      simp only [List.mem_singleton] at hd
      omega
    · have hdiv : n / 10 < n := Nat.div_lt_self (by omega) (by omega)
      obtain ⟨hne, hval, hbd⟩ := ih (n / 10) (by omega)
      simp only [natDecimalAux, if_neg h10]
      refine ⟨by simp, ?_, ?_⟩
      · simp only [decimalVal, List.foldl_append]
        have hv : (natDecimalAux f (n / 10)).foldl (fun a d => 10 * a + d) 0 =
            n / 10 := hval
        rw [hv]
        simp only [List.foldl_cons, List.foldl_nil]
        omega
      · intro d hd
        rw [List.mem_append] at hd
        rcases hd with hd | hd
        · exact hbd d hd
        · simp only [List.mem_singleton] at hd
          omega

theorem natDecimal_inj {m n : Nat} (h : natDecimal m = natDecimal n) :
    m = n := by
  have hm := (natDecimalAux_spec (m + 1) m (by omega)).2.1
  have hn := (natDecimalAux_spec (n + 1) n (by omega)).2.1
  have hv : decimalVal (natDecimal m) = decimalVal (natDecimal n) := by rw [h]
  unfold natDecimal at hv
  rw [hm, hn] at hv
  exact hv

theorem digitCh_inj : ∀ d1 < 10, ∀ d2 < 10,
    digitCh d1 = digitCh d2 → d1 = d2 := by decide

theorem digitCh_ne_underscore : ∀ d < 10, digitCh d ≠ '_' := by decide

theorem digitCh_ne_minus : ∀ d < 10, digitCh d ≠ '-' := by decide

theorem map_digitCh_inj : ∀ l1 l2 : List Nat, (∀ d ∈ l1, d < 10) →
    (∀ d ∈ l2, d < 10) → l1.map digitCh = l2.map digitCh → l1 = l2 := by
  intro l1
  induction l1 with
  | nil =>
    intro l2 _ _ h
    cases l2 with
    | nil => rfl
    | cons b t => simp at h
  | cons a t ih =>
    intro l2 h1 h2 h
    cases l2 with
    | nil => simp at h
    | cons b t2 =>
      simp only [List.map_cons, List.cons.injEq] at h
      have ha := digitCh_inj a (h1 a (by simp)) b (h2 b (by simp)) h.1
      rw [ha, ih t2 (fun d hd => h1 d (by simp [hd]))
        (fun d hd => h2 d (by simp [hd])) h.2]

theorem natStr_inj {m n : Nat} (h : natStr m = natStr n) : m = n := by
  have hdata : (natDecimal m).map digitCh = (natDecimal n).map digitCh :=
    congrArg String.data h
  exact natDecimal_inj (map_digitCh_inj _ _
    (natDecimalAux_spec (m + 1) m (by omega)).2.2
    (natDecimalAux_spec (n + 1) n (by omega)).2.2 hdata)

theorem underscore_not_mem_natStr (n : Nat) : '_' ∉ (natStr n).data := by
  intro hm
  have hdata : (natStr n).data = (natDecimal n).map digitCh := rfl
  rw [hdata, List.mem_map] at hm
  obtain ⟨d, hd, hdc⟩ := hm
  exact digitCh_ne_underscore d
    ((natDecimalAux_spec (n + 1) n (by omega)).2.2 d hd) hdc

theorem underscore_not_mem_intStr (i : Int) : '_' ∉ (intStr i).data := by
  unfold intStr
  by_cases hi : i < 0
  · rw [if_pos hi]
    intro hm
    have hdata : ("-" ++ natStr i.natAbs).data =
        '-' :: (natStr i.natAbs).data := rfl
    rw [hdata, List.mem_cons] at hm
    rcases hm with hm | hm
    · exact absurd hm (by decide)
    · exact underscore_not_mem_natStr _ hm
  · rw [if_neg hi]
    exact underscore_not_mem_natStr _

theorem natStr_data_ne_nil (n : Nat) : (natStr n).data ≠ [] := by
  have hdata : (natStr n).data = (natDecimal n).map digitCh := rfl
  rw [hdata]
  intro hm
  exact (natDecimalAux_spec (n + 1) n (by omega)).1
    (List.map_eq_nil_iff.mp hm)

theorem natStr_head_lt (n : Nat) : ∀ c cs, (natStr n).data = c :: cs →
    ∃ d < 10, c = digitCh d := by
  intro c cs hc
  have hdata : (natStr n).data = (natDecimal n).map digitCh := rfl
  rw [hdata] at hc
  rcases he : natDecimal n with _ | ⟨d, ds⟩
  · rw [he] at hc; simp at hc
  · rw [he] at hc
    simp only [List.map_cons, List.cons.injEq] at hc
    refine ⟨d, ?_, hc.1.symm⟩
    refine (natDecimalAux_spec (n + 1) n (by omega)).2.2 d ?_
    rw [show natDecimal n = natDecimalAux (n + 1) n from rfl] at he
    rw [he]; simp

theorem intStr_inj {i j : Int} (h : intStr i = intStr j) : i = j := by
  by_cases hi : i < 0 <;> by_cases hj : j < 0
  · unfold intStr at h
    rw [if_pos hi, if_pos hj] at h
    have hd : '-' :: (natStr i.natAbs).data =
        '-' :: (natStr j.natAbs).data := congrArg String.data h
    have heq := natStr_inj (String.ext (List.cons.inj hd).2)
    omega
  · exfalso
    unfold intStr at h
    rw [if_pos hi, if_neg hj] at h
    have hd : '-' :: (natStr i.natAbs).data =
        (natStr j.toNat).data := congrArg String.data h
    rcases he : (natStr j.toNat).data with _ | ⟨c, cs⟩
    · exact natStr_data_ne_nil _ he
    · rw [he] at hd
      obtain ⟨d, hdlt, hdc⟩ := natStr_head_lt _ c cs he
      exact digitCh_ne_minus d hdlt (by rw [← hdc, ← (List.cons.inj hd).1])
  · exfalso
    unfold intStr at h
    rw [if_neg hi, if_pos hj] at h
    have hd : (natStr i.toNat).data =
        '-' :: (natStr j.natAbs).data := congrArg String.data h
    rcases he : (natStr i.toNat).data with _ | ⟨c, cs⟩
    · exact natStr_data_ne_nil _ he
    · rw [he] at hd
      obtain ⟨d, hdlt, hdc⟩ := natStr_head_lt _ c cs he
      exact digitCh_ne_minus d hdlt (by rw [← hdc, (List.cons.inj hd).1])
  · unfold intStr at h
    rw [if_neg hi, if_neg hj] at h
    have heq := natStr_inj (String.ext (congrArg String.data h))
    omega

theorem append_sep_inj {α : Type} (sep : α) :
    ∀ l1 r1 l2 r2 : List α, sep ∉ l1 → sep ∉ l2 →
      l1 ++ sep :: r1 = l2 ++ sep :: r2 → l1 = l2 ∧ r1 = r2 := by
  intro l1
  induction l1 with
  | nil =>
    intro r1 l2 r2 _ h2 h
    cases l2 with
    | nil =>
      simp only [List.nil_append] at h
      exact ⟨rfl, (List.cons.inj h).2⟩
    | cons b t =>
      simp only [List.nil_append, List.cons_append] at h
      exact absurd ((List.cons.inj h).1 ▸ List.mem_cons_self b t) h2
  | cons a t ih =>
    intro r1 l2 r2 h1 h2 h
    cases l2 with
    | nil =>
      simp only [List.nil_append, List.cons_append] at h
      exact absurd ((List.cons.inj h).1 ▸ List.mem_cons_self a t) h1
    | cons b t2 =>
      simp only [List.cons_append, List.cons.injEq] at h
      obtain ⟨hp, hr⟩ := ih r1 t2 r2
        (fun hm => h1 (List.mem_cons_of_mem a hm))
        (fun hm => h2 (List.mem_cons_of_mem b hm)) h.2
      exact ⟨by rw [h.1, hp], hr⟩

/-- The `concat(user_id, '_', product_id)` encoding is injective on
`(user_id, product_id)` pairs. -/
theorem encodeUP_injective :
    Function.Injective
      (fun k : Int × Int => intStr k.1 ++ "_" ++ intStr k.2) := by
  intro k1 k2 h
  simp only at h
  have hd : (intStr k1.1).data ++ '_' :: (intStr k1.2).data =
      (intStr k2.1).data ++ '_' :: (intStr k2.2).data := by
    have h1 : (intStr k1.1 ++ "_" ++ intStr k1.2).data =
        (intStr k1.1).data ++ '_' :: (intStr k1.2).data := by
      simp [String.data_append]
    have h2 : (intStr k2.1 ++ "_" ++ intStr k2.2).data =
        (intStr k2.1).data ++ '_' :: (intStr k2.2).data := by
      simp [String.data_append]
    rw [← h1, ← h2, h]
  obtain ⟨hu, hp⟩ := append_sep_inj '_' _ _ _ _
    (underscore_not_mem_intStr k1.1) (underscore_not_mem_intStr k2.1) hd
  exact Prod.ext (intStr_inj (String.ext hu)) (intStr_inj (String.ext hp))

/-! ### Key uniqueness of `instacart__user_product_features` -/

theorem nodup_map_of_comp {α β γ : Type} (l : List α) (f : α → β)
    (g : β → γ) (gf : α → γ) (hgf : ∀ a, g (f a) = gf a)
    (h : (l.map gf).Nodup) : ((l.map f).map g).Nodup := by
  rw [List.map_map]
  have hc : (g ∘ f) = gf := funext hgf
  rw [hc]
  exact h

theorem nodup_map_comp_encode {α : Type} (l : List α) (g : α → Int × Int)
    (h : (l.map g).Nodup) :
    (l.map (fun x => intStr (g x).1 ++ "_" ++ intStr (g x).2)).Nodup := by
  have hc : (fun x => intStr (g x).1 ++ "_" ++ intStr (g x).2) =
      (fun k : Int × Int => intStr k.1 ++ "_" ++ intStr k.2) ∘ g := rfl
  rw [hc, ← List.map_map]
  exact List.Nodup.map encodeUP_injective h

theorem upm_pair_keys_nodup (db : DB) (es : String) :
    ((int_instacart__user_product_metrics db es).map
      (fun r => (r.user_id, r.product_id))).Nodup := by
  simp only [int_instacart__user_product_metrics]
  rw [List.map_map]
  exact groupBy_keys_nodup _ _

theorem last_purchase_keys_nodup (orders : List OrderRow)
    (order_products : List OrderProductRow) (es : String) :
    ((last_purchase orders order_products es).map
      (fun b => (b.1, b.2.1))).Nodup := by
  unfold last_purchase
  have hsub := filterMap_keys_sublist
    (fun kg : (Int × Int) × List (OrderRow × OrderProductRow) =>
      (argmaxBy (fun x => x.1.order_number) kg.2).map
        (fun x => (kg.1.1, kg.1.2, x.1.order_number)))
    Prod.fst (fun b => (b.1, b.2.1)) ?_
    (groupBy (fun x : OrderRow × OrderProductRow =>
        (x.1.user_id, x.2.product_id))
      (innerJoin (orders.filter (fun o => decide (o.eval_set = es)))
        order_products (fun o op => decide (o.order_id = op.order_id))))
  · exact (groupBy_keys_nodup _ _).sublist hsub
  · intro kg b hb
    have hb2 : (argmaxBy (fun x => x.1.order_number) kg.2).map
        (fun x => (kg.1.1, kg.1.2, x.1.order_number)) = some b := hb
    rcases hm : argmaxBy (fun x => x.1.order_number) kg.2 with _ | x <;>
      rw [hm] at hb2
    · exact absurd hb2 (by simp)
    · obtain rfl := Option.some.inj hb2
      rfl

theorem uptp_pair_keys_nodup (orders : List OrderRow)
    (order_products : List OrderProductRow) (es : String) :
    ((user_product_time_patterns orders order_products es).map
      (fun r => (r.user_id, r.product_id))).Nodup := by
  unfold user_product_time_patterns
  rw [List.map_map]
  exact groupBy_keys_nodup _ _

theorem upn_pair_keys_nodup (upm : List UserProductMetricsRow)
    (uas : List (Int × Option ℚ)) (pf : List (Int × Int × ℚ))
    (hupm : (upm.map (fun r => (r.user_id, r.product_id))).Nodup)
    (huas : (uas.map (fun b => b.1)).Nodup)
    (hpf : (pf.map (fun b => b.1)).Nodup) :
    ((user_product_normalized upm uas pf).map
      (fun r => (r.user_id, r.product_id))).Nodup := by
  unfold user_product_normalized
  rw [List.map_map]
  have hja : ((innerJoin upm uas
      (fun a b => decide (a.user_id = b.1))).map
      (fun x => (x.1.user_id, x.1.product_id))).Nodup := by
    refine innerJoin_keys_nodup hupm ?_
    intro a ha
    refine length_filter_le_one_of_nodup huas _ a.user_id ?_
    intro b hb
    simp only [decide_eq_true_eq] at hb
    exact hb.symm
  have hjb : ((innerJoin (innerJoin upm uas
      (fun a b => decide (a.user_id = b.1)))
      pf (fun x b => decide (x.1.product_id = b.1))).map
      (fun x => (x.1.1.user_id, x.1.1.product_id))).Nodup := by
    refine innerJoin_keys_nodup hja ?_
    intro a ha
    refine length_filter_le_one_of_nodup hpf _ a.1.product_id ?_
    intro b hb
    simp only [decide_eq_true_eq] at hb
    exact hb.symm
  exact hjb

theorem ddp_pair_keys_nodup (uptp : List UptpRow)
    (h : (uptp.map (fun r => (r.user_id, r.product_id))).Nodup) :
    ((dominant_day_parts uptp).map (fun b => (b.1, b.2.1))).Nodup := by
  unfold dominant_day_parts
  rw [List.map_map]
  exact h

theorem dd_pair_keys_nodup (uptp : List UptpRow)
    (h : (uptp.map (fun r => (r.user_id, r.product_id))).Nodup) :
    ((dominant_dows uptp).map (fun b => (b.1, b.2.1))).Nodup := by
  unfold dominant_dows
  rw [List.map_map]
  exact h

/-- The seven-way join of `instacart__user_product_features` keeps one
row per `(user_id, product_id)` when every constituent is keyed by at
most one row per pair. -/
theorem upf_chain_keys_nodup
    (upm : List UserProductMetricsRow) (uf : List UserFeaturesRow)
    (pf : List (Int × Int × ℚ)) (lp : List (Int × Int × Int))
    (uptp : List UptpRow) (upn : List UpnRow)
    (ddp : List (Int × Int × String)) (dd : List (Int × Int × Int))
    (hupm : (upm.map (fun r => (r.user_id, r.product_id))).Nodup)
    (huf : (uf.map (fun r => r.user_id)).Nodup)
    (hpf : (pf.map (fun b => b.1)).Nodup)
    (hlp : (lp.map (fun b => (b.1, b.2.1))).Nodup)
    (huptp : (uptp.map (fun r => (r.user_id, r.product_id))).Nodup)
    (hupn : (upn.map (fun r => (r.user_id, r.product_id))).Nodup)
    (hddp : (ddp.map (fun b => (b.1, b.2.1))).Nodup)
    (hdd : (dd.map (fun b => (b.1, b.2.1))).Nodup) :
    ((leftJoin (leftJoin (leftJoin (leftJoin (leftJoin
        (innerJoin
          (innerJoin upm uf (fun a b => decide (a.user_id = b.user_id)))
          pf (fun a b => decide (a.1.product_id = b.1)))
        lp (fun a b => decide (a.1.1.user_id = b.1) &&
          decide (a.1.1.product_id = b.2.1)))
        uptp (fun a b => decide (a.1.1.1.user_id = b.user_id) &&
          decide (a.1.1.1.product_id = b.product_id)))
        upn (fun a b => decide (a.1.1.1.1.user_id = b.user_id) &&
          decide (a.1.1.1.1.product_id = b.product_id)))
        ddp (fun a b => decide (a.1.1.1.1.1.user_id = b.1) &&
          decide (a.1.1.1.1.1.product_id = b.2.1)))
        dd (fun a b => decide (a.1.1.1.1.1.1.user_id = b.1) &&
          decide (a.1.1.1.1.1.1.product_id = b.2.1))).map
      (fun x =>
        (x.1.1.1.1.1.1.1.user_id, x.1.1.1.1.1.1.1.product_id))).Nodup := by
  have hj1 : ((innerJoin upm uf
      (fun a b => decide (a.user_id = b.user_id))).map
      (fun x => (x.1.user_id, x.1.product_id))).Nodup := by
    refine innerJoin_keys_nodup hupm ?_
    intro a ha
    refine length_filter_le_one_of_nodup huf _ a.user_id ?_
    intro b hb
    simp only [decide_eq_true_eq] at hb
    exact hb.symm
  have hj2 : ((innerJoin
      (innerJoin upm uf (fun a b => decide (a.user_id = b.user_id)))
      pf (fun a b => decide (a.1.product_id = b.1))).map
      (fun x => (x.1.1.user_id, x.1.1.product_id))).Nodup := by
    refine innerJoin_keys_nodup hj1 ?_
    intro a ha
    refine length_filter_le_one_of_nodup hpf _ a.1.product_id ?_
    intro b hb
    simp only [decide_eq_true_eq] at hb
    exact hb.symm
  have hj3 : ((leftJoin (innerJoin
      (innerJoin upm uf (fun a b => decide (a.user_id = b.user_id)))
      pf (fun a b => decide (a.1.product_id = b.1)))
      lp (fun a b => decide (a.1.1.user_id = b.1) &&
        decide (a.1.1.product_id = b.2.1))).map
      (fun x => (x.1.1.1.user_id, x.1.1.1.product_id))).Nodup := by
    refine leftJoin_keys_nodup hj2 ?_
    intro a ha
    refine length_filter_le_one_of_nodup hlp _
      (a.1.1.user_id, a.1.1.product_id) ?_
    intro b hb
    simp only [Bool.and_eq_true, decide_eq_true_eq] at hb
    rw [← hb.1, ← hb.2]
  have hj4 : ((leftJoin (leftJoin (innerJoin
      (innerJoin upm uf (fun a b => decide (a.user_id = b.user_id)))
      pf (fun a b => decide (a.1.product_id = b.1)))
      lp (fun a b => decide (a.1.1.user_id = b.1) &&
        decide (a.1.1.product_id = b.2.1)))
      uptp (fun a b => decide (a.1.1.1.user_id = b.user_id) &&
        decide (a.1.1.1.product_id = b.product_id))).map
      (fun x => (x.1.1.1.1.user_id, x.1.1.1.1.product_id))).Nodup := by
    refine leftJoin_keys_nodup hj3 ?_
    intro a ha
    refine length_filter_le_one_of_nodup huptp _
      (a.1.1.1.user_id, a.1.1.1.product_id) ?_
    intro b hb
    simp only [Bool.and_eq_true, decide_eq_true_eq] at hb
    rw [← hb.1, ← hb.2]
  have hj5 : ((leftJoin (leftJoin (leftJoin (innerJoin
      (innerJoin upm uf (fun a b => decide (a.user_id = b.user_id)))
      pf (fun a b => decide (a.1.product_id = b.1)))
      lp (fun a b => decide (a.1.1.user_id = b.1) &&
        decide (a.1.1.product_id = b.2.1)))
      uptp (fun a b => decide (a.1.1.1.user_id = b.user_id) &&
        decide (a.1.1.1.product_id = b.product_id)))
      upn (fun a b => decide (a.1.1.1.1.user_id = b.user_id) &&
        decide (a.1.1.1.1.product_id = b.product_id))).map
      (fun x => (x.1.1.1.1.1.user_id, x.1.1.1.1.1.product_id))).Nodup := by
    refine leftJoin_keys_nodup hj4 ?_
    intro a ha
    refine length_filter_le_one_of_nodup hupn _
      (a.1.1.1.1.user_id, a.1.1.1.1.product_id) ?_
    intro b hb
    simp only [Bool.and_eq_true, decide_eq_true_eq] at hb
    exact Prod.ext hb.1.symm hb.2.symm
  have hj6 : ((leftJoin (leftJoin (leftJoin (leftJoin (innerJoin
      (innerJoin upm uf (fun a b => decide (a.user_id = b.user_id)))
      pf (fun a b => decide (a.1.product_id = b.1)))
      lp (fun a b => decide (a.1.1.user_id = b.1) &&
        decide (a.1.1.product_id = b.2.1)))
      uptp (fun a b => decide (a.1.1.1.user_id = b.user_id) &&
        decide (a.1.1.1.product_id = b.product_id)))
      upn (fun a b => decide (a.1.1.1.1.user_id = b.user_id) &&
        decide (a.1.1.1.1.product_id = b.product_id)))
      ddp (fun a b => decide (a.1.1.1.1.1.user_id = b.1) &&
        decide (a.1.1.1.1.1.product_id = b.2.1))).map
      (fun x =>
        (x.1.1.1.1.1.1.user_id, x.1.1.1.1.1.1.product_id))).Nodup := by
    refine leftJoin_keys_nodup hj5 ?_
    intro a ha
    refine length_filter_le_one_of_nodup hddp _
      (a.1.1.1.1.1.user_id, a.1.1.1.1.1.product_id) ?_
    intro b hb
    simp only [Bool.and_eq_true, decide_eq_true_eq] at hb
    rw [← hb.1, ← hb.2]
  refine leftJoin_keys_nodup hj6 ?_
  intro a ha
  refine length_filter_le_one_of_nodup hdd _
    (a.1.1.1.1.1.1.user_id, a.1.1.1.1.1.1.product_id) ?_
  intro b hb
  simp only [Bool.and_eq_true, decide_eq_true_eq] at hb
  rw [← hb.1, ← hb.2]

theorem nodup_map_encode_of_comp {α β : Type} (l : List α) (f : α → β)
    (g : β → String) (gp : α → Int × Int)
    (hg : ∀ a, g (f a) = intStr (gp a).1 ++ "_" ++ intStr (gp a).2)
    (h : (l.map gp).Nodup) : ((l.map f).map g).Nodup := by
  rw [List.map_map]
  have hc : (g ∘ f) =
      fun a => intStr (gp a).1 ++ "_" ++ intStr (gp a).2 := funext hg
  rw [hc]
  have hc2 : (fun a => intStr (gp a).1 ++ "_" ++ intStr (gp a).2) =
      (fun k : Int × Int => intStr k.1 ++ "_" ++ intStr k.2) ∘ gp := rfl
  rw [hc2, ← List.map_map]
  exact List.Nodup.map encodeUP_injective h

set_option maxHeartbeats 2000000 in
/-- Under unique raw product/aisle/department ids, the
user-product-features table is keyed by distinct `(user_id,
product_id)` pairs, and the derived `user_product_id` strings are
distinct too. -/
theorem user_product_features_keys_nodup (db : DB) (es : String)
    (mo : Int)
    (hprod : (db.products.map (fun p => p.product_id)).Nodup)
    (haisle : (db.aisles.map (fun a => a.aisle_id)).Nodup)
    (hdept : (db.departments.map (fun d => d.department_id)).Nodup) :
    ∀ rows, instacart__user_product_features db es mo = Except.ok rows →
      (rows.map (fun r => (r.user_id, r.product_id))).Nodup ∧
      (rows.map (fun r => r.user_product_id)).Nodup := by
  intro rows hok
  simp only [instacart__user_product_features, bind, Except.bind] at hok
  rcases huf0 : instacart__user_features db es mo with u | uf <;>
    rw [huf0] at hok
  · exact absurd hok (by simp)
  · rcases hpf0 : instacart__product_features db es with u2 | pfull <;>
      rw [hpf0] at hok
    · exact absurd hok (by simp)
    · simp only [pure, Except.pure] at hok
      obtain rfl := Except.ok.inj hok
      have hufk : (uf.map (fun r => r.user_id)).Nodup :=
        user_features_keys_nodup db es mo uf huf0
      have hpfk : ((pfull.map (fun r =>
          (r.product_id, r.product_orders, r.product_reorder_rate))).map
          (fun b : Int × Int × ℚ => b.1)).Nodup := by
        rw [List.map_map]
        exact product_features_keys_nodup db es hprod haisle hdept
          pfull hpf0
      have huask : ((uf.map (fun r =>
          (r.user_id, r.avg_basket_size))).map
          (fun b : Int × Option ℚ => b.1)).Nodup := by
        rw [List.map_map]
        exact hufk
      have hchain := upf_chain_keys_nodup
        (int_instacart__user_product_metrics db es) uf
        (pfull.map (fun r =>
          (r.product_id, r.product_orders, r.product_reorder_rate)))
        (last_purchase db.orders db.order_products es)
        (user_product_time_patterns db.orders db.order_products es)
        (user_product_normalized
          (int_instacart__user_product_metrics db es)
          (uf.map (fun r => (r.user_id, r.avg_basket_size)))
          (pfull.map (fun r =>
            (r.product_id, r.product_orders, r.product_reorder_rate))))
        (dominant_day_parts
          (user_product_time_patterns db.orders db.order_products es))
        (dominant_dows
          (user_product_time_patterns db.orders db.order_products es))
        (upm_pair_keys_nodup db es) hufk hpfk
        (last_purchase_keys_nodup db.orders db.order_products es)
        (uptp_pair_keys_nodup db.orders db.order_products es)
        (upn_pair_keys_nodup _ _ _ (upm_pair_keys_nodup db es)
          huask hpfk)
        (ddp_pair_keys_nodup _
          (uptp_pair_keys_nodup db.orders db.order_products es))
        (dd_pair_keys_nodup _
          (uptp_pair_keys_nodup db.orders db.order_products es))
      constructor
      · exact nodup_map_of_comp _ _ _
          (fun x =>
            (x.1.1.1.1.1.1.1.user_id, x.1.1.1.1.1.1.1.product_id))
          (fun a => rfl) hchain
      · exact nodup_map_encode_of_comp _ _ _
          (fun x =>
            (x.1.1.1.1.1.1.1.user_id, x.1.1.1.1.1.1.1.product_id))
          (fun a => rfl) hchain

/-- C3: under the section-3 raw-input invariants (unique `order_id`,
`product_id`, `aisle_id` and `department_id`, order lines keyed by
`(order_id, product_id)` — together `DBWellKeyed`), each feature table
is keyed uniquely: `user_id` in the user features, `order_id` in the
order features, `product_id` in the product features, and the
`(user_id, product_id)` composite — as well as its materialization
`user_product_id` — in the user-product features.  The key columns
have non-optional types, so the keys are non-null by construction; no
join in the composers fans a key out to multiple rows. -/
theorem feature_tables_keys_unique (db : DB) (es : String) (mo : Int)
    (hdb : DBWellKeyed db) :
    (∀ rows, instacart__user_features db es mo = Except.ok rows →
      (rows.map (fun r => r.user_id)).Nodup) ∧
    ((instacart__order_features db es).map
      (fun r => r.order_id)).Nodup ∧
    (∀ rows, instacart__product_features db es = Except.ok rows →
      (rows.map (fun r => r.product_id)).Nodup) ∧
    (∀ rows, instacart__user_product_features db es mo = Except.ok rows →
      (rows.map (fun r => (r.user_id, r.product_id))).Nodup ∧
      (rows.map (fun r => r.user_product_id)).Nodup) := by
  obtain ⟨ho, hp, ha, hd, hop⟩ := hdb
  exact ⟨user_features_keys_nodup db es mo,
    order_features_keys_nodup db es ho,
    product_features_keys_nodup db es hp ha hd,
    user_product_features_keys_nodup db es mo hp ha hd⟩

/-! ## C1 — point-in-time isolation of the training features -/

theorem filter_through_disjoint {α : Type} (p q : α → Bool) :
    ∀ l : List α, (∀ a ∈ l, q a = true → p a = false) →
      l.filter q = (l.filter (fun a => !(p a))).filter q := by
  intro l
  induction l with
  | nil => intro h; rfl
  | cons a t ih =>
    intro h
    have ht := ih (fun b hb => h b (List.mem_cons_of_mem a hb))
    by_cases hq : q a = true
    · have hp0 : p a = false := h a (by simp) hq
      simp [List.filter_cons, hq, hp0, ht]
    · have hq0 : q a = false := by
        rcases Bool.eq_false_or_eq_true (q a) with h0 | h0
        · exact absurd h0 hq
        · exact h0
      by_cases hp0 : p a = true <;>
        simp [List.filter_cons, hq0, hp0, ht]

/-- Every feature composer reads `db.orders` only through the
`eval_set = es` prior-partition filter: two databases with the same
prior partition, order lines and dimension tables produce identical
feature tables. -/
theorem feature_tables_read_only_prior (db1 db2 : DB) (es : String)
    (mo : Int)
    (hprior : db1.orders.filter (fun o => decide (o.eval_set = es)) =
      db2.orders.filter (fun o => decide (o.eval_set = es)))
    (hop : db1.order_products = db2.order_products)
    (hp : db1.products = db2.products)
    (ha : db1.aisles = db2.aisles)
    (hd : db1.departments = db2.departments) :
    instacart__user_features db1 es mo =
      instacart__user_features db2 es mo ∧
    instacart__order_features db1 es = instacart__order_features db2 es ∧
    instacart__product_features db1 es =
      instacart__product_features db2 es ∧
    instacart__user_product_features db1 es mo =
      instacart__user_product_features db2 es mo := by
  have hufe : instacart__user_features db1 es mo =
      instacart__user_features db2 es mo := by
    simp only [instacart__user_features, int_instacart__user_order_metrics,
      orders_joined, distinct_products, reorder_stats, last_order_per_user,
      hprior, hop]
  have hofe : instacart__order_features db1 es =
      instacart__order_features db2 es := by
    simp only [instacart__order_features, order_metrics, prev_order_metrics,
      product_diversity, hprior, hop, hp]
  have hpfe : instacart__product_features db1 es =
      instacart__product_features db2 es := by
    simp only [instacart__product_features, int_instacart__product_metrics,
      product_hour_counts, product_peak_hours, product_day_counts,
      product_peak_days, hprior, hop, hp, ha, hd]
  have hupfe : instacart__user_product_features db1 es mo =
      instacart__user_product_features db2 es mo := by
    simp only [instacart__user_product_features, hufe, hpfe,
      int_instacart__user_product_metrics, last_purchase,
      user_product_time_patterns, hprior, hop]
  exact ⟨hufe, hofe, hpfe, hupfe⟩

/-- Rows of the assembled training table carry their feature lookups
keyed by the row's own `(user_id, product_id, order_id)`: equal-keyed
rows over the same feature tables carry equal feature values. -/
theorem training_assemble_fields_from_keys (db1 db2 : DB) (ts : String)
    (uf : List UserFeaturesRow) (pf : List ProductFeaturesRow)
    (ofs : List OrderFeaturesRow) (upf : List UserProductFeaturesRow)
    (r1 r2 : TrainingRow)
    (h1 : r1 ∈ training_assemble db1 ts uf pf ofs upf)
    (h2 : r2 ∈ training_assemble db2 ts uf pf ofs upf)
    (hu : r1.user_id = r2.user_id) (hpr : r1.product_id = r2.product_id)
    (ho : r1.order_id = r2.order_id) :
    r1.user_feats = r2.user_feats ∧ r1.product_feats = r2.product_feats ∧
      r1.order_feats = r2.order_feats ∧ r1.up_feats = r2.up_feats := by
  simp only [training_assemble, List.mem_flatMap, List.mem_map] at h1 h2
  obtain ⟨o1, ho1, l1, hl1, rfl⟩ := h1
  obtain ⟨o2, ho2, l2, hl2, rfl⟩ := h2
  dsimp only at hu hpr ho ⊢
  refine ⟨by rw [hu], by rw [hpr], by rw [ho], by rw [hu, hpr]⟩

/-- C1 (amended): the training-table composers enforce point-in-time
isolation by data partition, not by sequence number — every feature is
computed from the `eval_set = es` prior partition only.  Consequently,
when the orders of user `u` with `order_sequence_number ≥ N` all lie
outside the prior partition (as they do when the labeled order is the
user's last), modifying exactly those orders changes no feature table
and no feature value of any training row: rows of the two runs with
equal `(user_id, product_id, order_id)` keys carry equal feature
values.  Without that invariant the guarantee fails — the code never
compares sequence numbers (see the counterexample). -/
theorem training_features_point_in_time (db1 db2 : DB) (ts es : String)
    (mo : Int) (u N : Int)
    (hmod : db1.orders.filter (fun o =>
        !(decide (o.user_id = u) && decide (N ≤ o.order_number))) =
      db2.orders.filter (fun o =>
        !(decide (o.user_id = u) && decide (N ≤ o.order_number))))
    (hiso1 : ∀ o ∈ db1.orders, o.user_id = u → N ≤ o.order_number →
      o.eval_set ≠ es)
    (hiso2 : ∀ o ∈ db2.orders, o.user_id = u → N ≤ o.order_number →
      o.eval_set ≠ es)
    (hop : db1.order_products = db2.order_products)
    (hp : db1.products = db2.products)
    (ha : db1.aisles = db2.aisles)
    (hd : db1.departments = db2.departments) :
    (instacart__user_features db1 es mo =
        instacart__user_features db2 es mo ∧
      instacart__order_features db1 es =
        instacart__order_features db2 es ∧
      instacart__product_features db1 es =
        instacart__product_features db2 es ∧
      instacart__user_product_features db1 es mo =
        instacart__user_product_features db2 es mo) ∧
    ∀ rows1 rows2,
      instacart__training_features db1 ts es mo = Except.ok rows1 →
      instacart__training_features db2 ts es mo = Except.ok rows2 →
      ∀ r1 ∈ rows1, ∀ r2 ∈ rows2,
        r1.user_id = r2.user_id → r1.product_id = r2.product_id →
        r1.order_id = r2.order_id →
        r1.user_feats = r2.user_feats ∧
          r1.product_feats = r2.product_feats ∧
          r1.order_feats = r2.order_feats ∧ r1.up_feats = r2.up_feats := by
  have hdisj1 : ∀ o ∈ db1.orders, (decide (o.eval_set = es)) = true →
      (decide (o.user_id = u) && decide (N ≤ o.order_number)) = false := by
    intro o ho hq
    simp only [decide_eq_true_eq] at hq
    by_cases hgu : o.user_id = u
    · by_cases hgn : N ≤ o.order_number
      · exact absurd hq (hiso1 o ho hgu hgn)
      · simp [hgn]
    · simp [hgu]
  have hdisj2 : ∀ o ∈ db2.orders, (decide (o.eval_set = es)) = true →
      (decide (o.user_id = u) && decide (N ≤ o.order_number)) = false := by
    intro o ho hq
    simp only [decide_eq_true_eq] at hq
    by_cases hgu : o.user_id = u
    · by_cases hgn : N ≤ o.order_number
      · exact absurd hq (hiso2 o ho hgu hgn)
      · simp [hgn]
    · simp [hgu]
  have hprior : db1.orders.filter (fun o => decide (o.eval_set = es)) =
      db2.orders.filter (fun o => decide (o.eval_set = es)) := by
    rw [filter_through_disjoint
        (fun o => decide (o.user_id = u) && decide (N ≤ o.order_number))
        (fun o => decide (o.eval_set = es)) db1.orders hdisj1,
      hmod,
      ← filter_through_disjoint
        (fun o => decide (o.user_id = u) && decide (N ≤ o.order_number))
        (fun o => decide (o.eval_set = es)) db2.orders hdisj2]
  obtain ⟨hufe, hofe, hpfe, hupfe⟩ :=
    feature_tables_read_only_prior db1 db2 es mo hprior hop hp ha hd
  refine ⟨⟨hufe, hofe, hpfe, hupfe⟩, ?_⟩
  intro rows1 rows2 ht1 ht2 r1 hr1 r2 hr2 hku hkp hko
  simp only [instacart__training_features, bind, Except.bind] at ht1 ht2
  rcases e1 : instacart__user_features db1 es mo with x | uf1 <;>
    rw [e1] at ht1
  · exact absurd ht1 (by simp)
  · rcases e2 : instacart__product_features db1 es with x | pf1 <;>
      rw [e2] at ht1
    · exact absurd ht1 (by simp)
    · rcases e3 : instacart__user_product_features db1 es mo with x | upf1 <;>
        rw [e3] at ht1
      · exact absurd ht1 (by simp)
      · simp only [pure, Except.pure] at ht1
        obtain rfl := Except.ok.inj ht1
        rcases e4 : instacart__user_features db2 es mo with x | uf2 <;>
          rw [e4] at ht2
        · exact absurd ht2 (by simp)
        · rcases e5 : instacart__product_features db2 es with x | pf2 <;>
            rw [e5] at ht2
          · exact absurd ht2 (by simp)
          · rcases e6 : instacart__user_product_features db2 es mo
              with x | upf2 <;> rw [e6] at ht2
            · exact absurd ht2 (by simp)
            · simp only [pure, Except.pure] at ht2
              obtain rfl := Except.ok.inj ht2
              rw [e1, e4] at hufe
              obtain rfl := Except.ok.inj hufe
              rw [e2, e5] at hpfe
              obtain rfl := Except.ok.inj hpfe
              rw [e3, e6] at hupfe
              obtain rfl := Except.ok.inj hupfe
              rw [← hofe] at hr2
              exact training_assemble_fields_from_keys db1 db2 ts uf1 pf1
                (instacart__order_features db1 es) upf1 r1 r2 hr1 hr2
                hku hkp hko

/-! ## Concrete databases for the scenario claims -/

/-- The §8 end-to-end scenario: one user, five orders numbered 1–5,
orders 1–4 in the `prior` partition and order 5 in `train`. -/
def db_five_orders : DB :=
  { orders :=
      [{ order_id := 11, user_id := 1, order_number := 1, order_dow := 0,
         order_hour_of_day := 8, days_since_prior_order := none,
         eval_set := "prior" },
       { order_id := 12, user_id := 1, order_number := 2, order_dow := 1,
         order_hour_of_day := 9, days_since_prior_order := some 7,
         eval_set := "prior" },
       { order_id := 13, user_id := 1, order_number := 3, order_dow := 2,
         order_hour_of_day := 10, days_since_prior_order := some 10,
         eval_set := "prior" },
       { order_id := 14, user_id := 1, order_number := 4, order_dow := 3,
         order_hour_of_day := 16, days_since_prior_order := some 5,
         eval_set := "prior" },
       { order_id := 15, user_id := 1, order_number := 5, order_dow := 4,
         order_hour_of_day := 21, days_since_prior_order := some 3,
         eval_set := "train" }]
    order_products :=
      [{ order_id := 11, product_id := 100, cart_position := 1,
         is_reordered := 0 },
       { order_id := 12, product_id := 100, cart_position := 1,
         is_reordered := 1 },
       { order_id := 12, product_id := 101, cart_position := 2,
         is_reordered := 0 },
       { order_id := 13, product_id := 100, cart_position := 1,
         is_reordered := 1 },
       { order_id := 14, product_id := 100, cart_position := 1,
         is_reordered := 1 },
       { order_id := 14, product_id := 101, cart_position := 2,
         is_reordered := 1 },
       { order_id := 15, product_id := 101, cart_position := 1,
         is_reordered := 1 }]
    products :=
      [{ product_id := 100, product_name := "apples", aisle_id := 1,
         department_id := 1 },
       { product_id := 101, product_name := "milk", aisle_id := 2,
         department_id := 1 }]
    aisles :=
      [{ aisle_id := 1, aisle_name := "fruit" },
       { aisle_id := 2, aisle_name := "dairy" }]
    departments := [{ department_id := 1, department_name := "produce" }] }

/-- One user whose only qualifying order has no order lines, so its
basket size — and hence the user's total basket size — is zero. -/
def db_empty_basket : DB :=
  { orders := [{ order_id := 10, user_id := 1, order_number := 4,
                 order_dow := 0, order_hour_of_day := 8,
                 days_since_prior_order := none, eval_set := "prior" }]
    order_products := []
    products := []
    aisles := []
    departments := [] }

/-- A user whose `prior` partition contains an order (id 14) with
sequence number 4, higher than the training order's sequence number 3:
the pipeline never compares sequence numbers, so this order's data
flows into the features of the earlier training row. -/
def db_leak_a : DB :=
  { orders :=
      [{ order_id := 11, user_id := 1, order_number := 1, order_dow := 0,
         order_hour_of_day := 8, days_since_prior_order := none,
         eval_set := "prior" },
       { order_id := 12, user_id := 1, order_number := 2, order_dow := 1,
         order_hour_of_day := 9, days_since_prior_order := some 3,
         eval_set := "prior" },
       { order_id := 13, user_id := 1, order_number := 3, order_dow := 2,
         order_hour_of_day := 10, days_since_prior_order := some 2,
         eval_set := "train" },
       { order_id := 14, user_id := 1, order_number := 4, order_dow := 3,
         order_hour_of_day := 16, days_since_prior_order := some 1,
         eval_set := "prior" }]
    order_products :=
      [{ order_id := 11, product_id := 100, cart_position := 1,
         is_reordered := 0 },
       { order_id := 12, product_id := 100, cart_position := 1,
         is_reordered := 1 },
       { order_id := 13, product_id := 100, cart_position := 1,
         is_reordered := 1 },
       { order_id := 14, product_id := 100, cart_position := 1,
         is_reordered := 1 }]
    products :=
      [{ product_id := 100, product_name := "apples", aisle_id := 1,
         department_id := 1 }]
    aisles := [{ aisle_id := 1, aisle_name := "fruit" }]
    departments := [{ department_id := 1, department_name := "produce" }] }

/-- `db_leak_a` with the future-numbered `prior` order (id 14)
modified: its `days_since_prior_order` changes from 1 to 9. -/
def db_leak_b : DB :=
  { orders :=
      [{ order_id := 11, user_id := 1, order_number := 1, order_dow := 0,
         order_hour_of_day := 8, days_since_prior_order := none,
         eval_set := "prior" },
       { order_id := 12, user_id := 1, order_number := 2, order_dow := 1,
         order_hour_of_day := 9, days_since_prior_order := some 3,
         eval_set := "prior" },
       { order_id := 13, user_id := 1, order_number := 3, order_dow := 2,
         order_hour_of_day := 10, days_since_prior_order := some 2,
         eval_set := "train" },
       { order_id := 14, user_id := 1, order_number := 4, order_dow := 3,
         order_hour_of_day := 16, days_since_prior_order := some 9,
         eval_set := "prior" }]
    order_products := db_leak_a.order_products
    products := db_leak_a.products
    aisles := db_leak_a.aisles
    departments := db_leak_a.departments }

/-- `db_five_orders` with its only non-`prior` order (id 15, the
user's last, sequence number 5) modified: the hour moves from 21 to
22.  Every order of user 1 with sequence number ≥ 5 lies outside the
`prior` partition here. -/
def db_wit : DB :=
  { orders :=
      [{ order_id := 11, user_id := 1, order_number := 1, order_dow := 0,
         order_hour_of_day := 8, days_since_prior_order := none,
         eval_set := "prior" },
       { order_id := 12, user_id := 1, order_number := 2, order_dow := 1,
         order_hour_of_day := 9, days_since_prior_order := some 7,
         eval_set := "prior" },
       { order_id := 13, user_id := 1, order_number := 3, order_dow := 2,
         order_hour_of_day := 10, days_since_prior_order := some 10,
         eval_set := "prior" },
       { order_id := 14, user_id := 1, order_number := 4, order_dow := 3,
         order_hour_of_day := 16, days_since_prior_order := some 5,
         eval_set := "prior" },
       { order_id := 15, user_id := 1, order_number := 5, order_dow := 4,
         order_hour_of_day := 22, days_since_prior_order := some 3,
         eval_set := "train" }]
    order_products := db_five_orders.order_products
    products := db_five_orders.products
    aisles := db_five_orders.aisles
    departments := db_five_orders.departments }

/-! ## C9 — the five-order scenario and `lag` point-in-time behaviour -/

theorem foldl_choice_mem {α : Type} (f : α → Int) :
    ∀ (t : List α) (x : α),
      t.foldl (fun b c => if f b < f c then c else b) x ∈ x :: t := by
  intro t
  induction t with
  | nil => intro x; simp
  | cons y t ih =>
    intro x
    simp only [List.foldl_cons]
    by_cases h : f x < f y
    · rw [if_pos h]
      exact List.mem_cons_of_mem x (ih y)
    · rw [if_neg h]
      rcases List.mem_cons.mp (ih x) with h2 | h2
      · rw [h2]; simp
      · simp [h2]

theorem argmaxBy_mem {α : Type} {f : α → Int} {l : List α} {a : α}
    (h : argmaxBy f l = some a) : a ∈ l := by
  rcases l with _ | ⟨x, t⟩
  · exact absurd h (by simp [argmaxBy])
  · rw [argmaxBy] at h
    obtain rfl := Option.some.inj h
    exact foldl_choice_mem f t x

section
attribute [local semireducible] Rat.add Rat.mul Rat.inv Rat.sub

/-- C9: over the five-order scenario the prior-partition feature pass
reports `user_total_orders = 4` (the `train` order is excluded), the
order-features table has no row for order 5 and its `basket_size_delta`
column is the difference with the user's directly preceding order; in
general, every `lag`-derived previous-order value of
`prev_order_metrics` comes from a row of the same user with a strictly
smaller `order_number` — never from the row's own order. -/
theorem five_order_scenario :
    ((instacart__user_features db_five_orders "prior" 4).map
      (fun rows => rows.map (fun r => (r.user_id, r.user_total_orders))) =
      Except.ok [(1, 4)]) ∧
    ((instacart__order_features db_five_orders "prior").map
      (fun r => (r.order_id, r.basket_size_delta)) =
      [(11, none), (12, some 1), (13, some (-1)), (14, some 1)]) ∧
    (∀ (orders : List OrderRow) (order_products : List OrderProductRow)
      (es : String),
      ∀ pr ∈ prev_order_metrics orders order_products es,
        pr.prev_basket_size = none ∨
        ∃ y ∈ innerJoin (orders.filter (fun o => decide (o.eval_set = es)))
            (order_metrics orders order_products es)
            (fun o m => decide (o.order_id = m.order_id)),
          y.1.user_id = pr.user_id ∧ y.1.order_number < pr.order_number ∧
          pr.prev_basket_size = some y.2.basket_size) := by
  refine ⟨by decide, by decide, ?_⟩
  intro orders order_products es pr hpr
  simp only [prev_order_metrics, List.mem_map] at hpr
  obtain ⟨x, hx, rfl⟩ := hpr
  rcases hprev : argmaxBy (fun y : OrderRow × OrderMetricsRow =>
      y.1.order_number)
    ((innerJoin (orders.filter (fun o => decide (o.eval_set = es)))
        (order_metrics orders order_products es)
        (fun o m => decide (o.order_id = m.order_id))).filter
      (fun y => decide (y.1.user_id = x.1.user_id) &&
        decide (y.1.order_number < x.1.order_number))) with _ | y
  · left
    simp [hprev]
  · right
    have hymem := argmaxBy_mem hprev
    have hyfil := List.mem_filter.mp hymem
    have hcond := hyfil.2
    simp only [Bool.and_eq_true, decide_eq_true_eq] at hcond
    exact ⟨y, hyfil.1, hcond.1, hcond.2, by simp [hprev]⟩

/-- C9 witness: the scenario row for order 12 instantiates the `lag`
conjunct — its previous-basket value comes from order 11
(`order_number` 1 < 2). -/
theorem five_order_scenario_witness :
    ({ user_id := 1, order_number := 2, order_id := 12,
       prev_basket_size := some 1, prev_reorder_ratio := some 0,
       prev_order_dow := some 0, prev_order_hour := some 8 } :
        PrevOrderMetricsRow).prev_basket_size = none ∨
    ∃ y ∈ innerJoin
        (db_five_orders.orders.filter
          (fun o => decide (o.eval_set = "prior")))
        (order_metrics db_five_orders.orders db_five_orders.order_products
          "prior")
        (fun o m => decide (o.order_id = m.order_id)),
      y.1.user_id = (1 : Int) ∧ y.1.order_number < (2 : Int) ∧
      (some (1 : Int) : Option Int) = some y.2.basket_size :=
  five_order_scenario.2.2 db_five_orders.orders
    db_five_orders.order_products "prior"
    { user_id := 1, order_number := 2, order_id := 12,
      prev_basket_size := some 1, prev_reorder_ratio := some 0,
      prev_order_dow := some 0, prev_order_hour := some 8 }
    (by decide)

/-- C2 counterexample: on a user whose only qualifying order has an
empty basket, `overall_reorder_rate` hits a zero denominator and the
model build errors instead of producing `NULL`. -/
theorem overall_reorder_rate_divides_by_zero :
    int_instacart__user_order_metrics db_empty_basket "prior" 4 =
      Except.error () := by decide

/-- C2 witness: the safe-divide contract instantiated on
`db_empty_basket`. -/
theorem safe_divide_contract_witness :
    (∃ pms, int_instacart__product_metrics db_empty_basket "prior" =
      Except.ok pms) ∧
    (int_instacart__user_order_metrics db_empty_basket "prior" 4 =
        Except.error () ↔
      ∃ kg ∈ groupBy (fun r => r.user_id)
        ((orders_joined db_empty_basket.orders
            db_empty_basket.order_products "prior").filter
          (fun r => decide ((4 : Int) ≤ r.order_number))),
        sumZ (kg.2.map (fun r => r.basket_size)) = 0) :=
  ⟨safe_divide_contract.1 db_empty_basket "prior",
    safe_divide_contract.2.2 db_empty_basket "prior" 4⟩

/-- C4 witness: the generator contract instantiated on a one-row base
relation. -/
theorem window_generator_contract_witness :
    ∃ row ∈ calculate_time_window_aggs Prod.fst Prod.snd
      (fun _ => (1 : ℚ)) 10 [7, 30] [((1 : Int), (5 : Int))],
      row.1 = (1 : Int) :=
  (window_generator_contract Prod.fst Prod.snd (fun _ => (1 : ℚ)) 10
    [7, 30] [((1 : Int), (5 : Int))]).2 1 (by decide)

/-- C5 witness: nested windows 7 < 30 on a one-row base relation. -/
theorem window_sums_nested_witness :
    (((1 : ℚ), (1 : ℚ)) : ℚ × ℚ).1 ≤ (((1 : ℚ), (1 : ℚ)) : ℚ × ℚ).1 ∧
    ([((1 : Int), (5 : Int))].filter (fun r =>
        decide (r.1 = (1 : Int)) && decide ((10 : Int) - r.2 ≤ 7))).Sublist
      ([((1 : Int), (5 : Int))].filter (fun r =>
        decide (r.1 = (1 : Int)) && decide ((10 : Int) - r.2 ≤ 30))) :=
  @window_sums_nested (Int × Int) Int _ Prod.fst Prod.snd
    (fun _ => (1 : ℚ)) 10 [7, 30] [((1 : Int), (5 : Int))] 0 1 7 30
    (by decide) (by decide) (by decide) (by decide)
    ((1 : Int), [((1 : ℚ), (1 : ℚ)), ((1 : ℚ), (1 : ℚ))]) (by decide)
    ((1 : ℚ), (1 : ℚ)) ((1 : ℚ), (1 : ℚ)) (by decide) (by decide)

/-- C8 counterexample: the same data aggregated by statements run at
two different dates yields different window aggregates — the macro
reads `current_date()` at statement time instead of taking a fixed
per-run reference instant. -/
theorem window_aggs_read_statement_clock :
    calculate_time_window_aggs Prod.fst Prod.snd (fun _ => (1 : ℚ)) 5 [7]
        [((1 : Int), (0 : Int))] ≠
      calculate_time_window_aggs Prod.fst Prod.snd (fun _ => (1 : ℚ)) 100
        [7] [((1 : Int), (0 : Int))] := by decide

set_option maxHeartbeats 2000000 in
/-- C1 counterexample: two databases agreeing everywhere except on an
order of user 1 with sequence number 4 ≥ N = 3 (N being the sequence
number of the only training row's order) produce different feature
values for that training row, because the modified order sits in the
`prior` partition: the composers select their sources by `eval_set`,
never by sequence-number comparison. -/
theorem training_features_leak_from_future_prior_order :
    (db_leak_a.orders.filter (fun o =>
        !(decide (o.user_id = 1) && decide (3 ≤ o.order_number))) =
      db_leak_b.orders.filter (fun o =>
        !(decide (o.user_id = 1) && decide (3 ≤ o.order_number)))) ∧
    db_leak_a.order_products = db_leak_b.order_products ∧
    db_leak_a.products = db_leak_b.products ∧
    db_leak_a.aisles = db_leak_b.aisles ∧
    db_leak_a.departments = db_leak_b.departments ∧
    (∀ o ∈ db_leak_a.orders, o.eval_set = "train" →
      o.user_id = 1 ∧ o.order_number = 3) ∧
    Except.map (List.map (fun r => (r.user_id, r.product_id, r.order_id)))
      (instacart__training_features db_leak_a "train" "prior" 1) =
      Except.map (List.map (fun r => (r.user_id, r.product_id, r.order_id)))
        (instacart__training_features db_leak_b "train" "prior" 1) ∧
    Except.map (List.map (fun r => r.user_feats))
      (instacart__training_features db_leak_a "train" "prior" 1) ≠
      Except.map (List.map (fun r => r.user_feats))
        (instacart__training_features db_leak_b "train" "prior" 1) := by
  decide

theorem training_features_point_in_time_witness :
    (∀ o ∈ db_five_orders.orders, o.user_id = 1 → 5 ≤ o.order_number →
      o.eval_set ≠ "prior") ∧
    instacart__user_features db_five_orders "prior" 4 =
      instacart__user_features db_wit "prior" 4 :=
  ⟨by decide,
    (training_features_point_in_time db_five_orders db_wit "train" "prior"
      4 1 5 (by decide) (by decide) (by decide) (by decide) (by decide)
      (by decide) (by decide)).1.1⟩

theorem feature_tables_keys_unique_witness :
    DBWellKeyed db_five_orders ∧
      ((instacart__order_features db_five_orders "prior").map
        (fun r => r.order_id)).Nodup :=
  ⟨by decide,
    (feature_tables_keys_unique db_five_orders "prior" 4 (by decide)).2.1⟩

end

end FeatureStore
